import Mathlib

/-!
Verification of the werewolf-game backend game engine.

The definitions below are a shallow embedding of the TypeScript backend:

* `packages/backend/src/modules/game/game.service.ts` (class `GameService`):
  `joinGame`, `castVote`, `performNightAction`, `processPhaseEnd`,
  `assignRoles`, `processNightActions`, `processVotes`, `checkWinConditions`,
  `findNextPlayerNumber`, `isValidActionForRole`, `validateActionAvailable`.
* `backend/src/services/gameManager.ts` (class `GameManager`): `assignRoles`.
* `packages/backend/src/common/types/mapper.ts`: `toGameStateForPlayer`.
* `packages/shared/src/types/game.types.ts`: the data model.

Database access through `gameRepository` is modelled by threading the
`GameWithRelations` record explicitly: each repository `update`/`create`
call becomes a functional update of that record, and the record returned by
an operation is the post-call database state.  Fields never read by the
embedded operations (timestamps such as `createdAt`, `joinedAt`,
`startedAt`, and the `gameId` back references) are omitted; DB-generated
ids are passed in as explicit `freshId` arguments; `Date` values are
modelled as `Nat`.  Nondeterministic shuffling (`Math.random`) is modelled
by an explicit choice function argument.
-/

namespace Werewolf

/-- `Role` enum of `game.types.ts`. -/
inductive Role
  | VILLAGER
  | WEREWOLF
  | SEER
  | DOCTOR
  | HUNTER
  | WITCH
  | CUPID
  | LITTLE_GIRL
  | THIEF
  | SHERIFF
deriving DecidableEq

/-- `GamePhase` enum of `game.types.ts`. -/
inductive GamePhase
  | WAITING
  | NIGHT
  | DISCUSSION
  | VOTING
  | EXECUTION
  | GAME_OVER
deriving DecidableEq

/-- `GameStatus` enum of `game.types.ts`. -/
inductive GameStatus
  | LOBBY
  | IN_PROGRESS
  | COMPLETED
  | CANCELLED
deriving DecidableEq

/-- `Side` enum of `game.types.ts`. -/
inductive Side
  | VILLAGE
  | WEREWOLF
  | LOVERS
  | NONE
deriving DecidableEq

/-- `ActionType` enum of `game.types.ts`. -/
inductive ActionType
  | WEREWOLF_KILL
  | SEER_CHECK
  | DOCTOR_SAVE
  | WITCH_KILL
  | WITCH_SAVE
  | HUNTER_SHOOT
  | CUPID_LINK
  | SHERIFF_REVEAL
  | THIEF_CHOOSE
deriving DecidableEq

/-- `EventType` enum of `game.types.ts`. -/
inductive EventType
  | GAME_STARTED
  | PHASE_CHANGED
  | PLAYER_KILLED
  | PLAYER_VOTED
  | PLAYER_JOINED
  | HOST_CHANGED
  | PLAYER_LEFT
  | PLAYER_ELIMINATED
  | ROLE_REVEALED
  | LOVERS_REVEALED
  | POTION_USED
  | GAME_ENDED
  | PLAYER_DISCONNECTED
  | PLAYER_RECONNECTED
  | HUNTER_TRIGGERED
deriving DecidableEq

/-- `EventVisibility` enum of `game.types.ts`. -/
inductive EventVisibility
  | PUBLIC
  | PRIVATE
  | ROLE
  | DEAD
deriving DecidableEq

/-- `GamePlayer` of `game.types.ts` (timestamps other than the
`disconnectedAt` marker are omitted; `disconnectedAt` is a `Nat` instant). -/
structure GamePlayer where
  id : String
  userId : String
  playerNumber : Nat
  nickname : String
  role : Option Role
  isAlive : Bool
  isHost : Bool
  disconnectedAt : Option Nat
deriving DecidableEq

/-- `Vote` of `game.types.ts` (`targetId` null = explicit skip). -/
structure Vote where
  id : String
  voterId : String
  targetId : Option String
  phase : GamePhase
  dayNumber : Nat
  round : Nat
deriving DecidableEq

/-- `GameAction` of `game.types.ts`. -/
structure GameAction where
  id : String
  playerId : String
  action : ActionType
  targetId : Option String
  secondaryTargetId : Option String
  phase : GamePhase
  dayNumber : Nat
  processed : Bool
deriving DecidableEq

/-- `RoleState` of `game.types.ts`. -/
structure RoleState where
  id : String
  playerId : String
  role : Role
  healPotionUsed : Bool
  poisonPotionUsed : Bool
  hasShot : Bool
  isLover : Bool
deriving DecidableEq

/-- `LoverPair` of `game.types.ts`. -/
structure LoverPair where
  id : String
  player1Id : String
  player2Id : String
deriving DecidableEq

/-- `GameTimer` of `game.types.ts` (`startedAt`, `pausedAt` as `Nat` instants). -/
structure GameTimer where
  id : String
  phase : GamePhase
  dayNumber : Nat
  startedAt : Nat
  duration : Nat
  pausedAt : Option Nat
deriving DecidableEq

/-- `GameSettings` of `game.types.ts`; the `roles` record is an association
list in JavaScript object-key insertion order (`Object.entries` order). -/
structure GameSettings where
  minPlayers : Nat
  maxPlayers : Nat
  discussionTime : Nat
  votingTime : Nat
  nightTime : Nat
  roles : List (Role × Nat)
deriving DecidableEq

/-- The JSON payloads the embedded operations attach to `GameEvent.data`. -/
inductive EventData
  | playerKilled (playerId : String) (playerName : String) (causeOfDeath : String)
  | playerEliminated (playerId : String) (playerName : String) (voteCount : Nat)
  | hunterTriggered (message : String)
  | phaseChanged (newPhase : GamePhase) (dayNumber : Nat)
  | gameEnded (winningSide : Option Side) (winners : List String)
  | playerJoined (playerId : String) (nickname : String)
  | playerReconnected (playerId : String) (nickname : String)
deriving DecidableEq

/-- `GameEvent` of `game.types.ts` (DB-generated `id` and `createdAt` omitted). -/
structure GameEvent where
  type : EventType
  visibility : EventVisibility
  visibleTo : List String
  data : EventData
  dayNumber : Nat
  phase : GamePhase
deriving DecidableEq

/-- `GameWithRelations` of `game.types.ts`: a game together with all the
rows the repository loads alongside it.  This record doubles as the
database state for the single game under consideration. -/
structure Game where
  id : String
  code : String
  status : GameStatus
  phase : GamePhase
  dayNumber : Nat
  settings : GameSettings
  locale : String
  winningSide : Option Side
  players : List GamePlayer
  events : List GameEvent
  votes : List Vote
  actions : List GameAction
  roleStates : List RoleState
  timers : List GameTimer
  loverPairs : List LoverPair
deriving DecidableEq

/-- `ErrorCode` values raised by the embedded operations
(`packages/shared/src/errors`). -/
inductive ErrorCode
  | GAME_NOT_FOUND
  | GAME_ALREADY_STARTED
  | GAME_FULL
  | PLAYER_NOT_FOUND
  | NOT_HOST
deriving DecidableEq

/-- A thrown `GameError(code, msg)` or `ValidationError(msg)`. -/
inductive GameErr
  | gameError (code : ErrorCode) (msg : String)
  | validationError (msg : String)
deriving DecidableEq

/-- `WinConditionCheck` of `game.types.ts`. -/
structure WinConditionCheck where
  gameEnded : Bool
  winningSide : Option Side
  winners : Option (List String)
deriving DecidableEq

/-- `PhaseEndResult` of `game.types.ts`. -/
structure PhaseEndResult where
  newPhase : GamePhase
  dayNumber : Nat
  events : List GameEvent
  gameEnded : Bool
  winningSide : Option Side
  winners : Option (List String)
deriving DecidableEq

/-- Repository `updatePlayer(playerId, { isAlive: false })`: the DB row with
the given unique id gets `isAlive := false`. -/
def killById (ps : List GamePlayer) (pid : String) : List GamePlayer :=
  ps.map fun p => if p.id == pid then { p with isAlive := false } else p

/-- Repository `createEvent`: `GameService.createEvent` re-reads the game
and stamps the event with the game's current `dayNumber` and `phase`. -/
def appendEvent (db : Game) (t : EventType) (vis : EventVisibility)
    (visibleTo : List String) (data : EventData) : Game :=
  { db with events := db.events ++
      [{ type := t, visibility := vis, visibleTo := visibleTo, data := data,
         dayNumber := db.dayNumber, phase := db.phase }] }

/-- Modelled from the spec: `gameRepository.findLoverPair(playerId)` is not
among the sources (only its callers in `game.service.ts` are).  Per §3 of
the spec a `LoverPair` is a "symmetric link between two players" and "each
player belongs to at most one pair", so the lookup returns the pair that
contains the player on either side, if any. -/
def findLoverPair (db : Game) (pid : String) : Option LoverPair :=
  db.loverPairs.find? fun lp => lp.player1Id == pid || lp.player2Id == pid

namespace GameService

/-- The filter `game.actions.filter(...)` at the head of
`GameService.processNightActions`: unprocessed actions of the current
day's night. -/
def nightActionFilter (g : Game) (a : GameAction) : Bool :=
  a.dayNumber == g.dayNumber && a.phase == GamePhase.NIGHT && !a.processed

/-- The kill target an action contributes to the `killed` list of
`processNightActions`: the non-null target of a `WEREWOLF_KILL` or
`WITCH_KILL`. -/
def killSelect (a : GameAction) : Option String :=
  match a.action with
  | ActionType.WEREWOLF_KILL => a.targetId
  | ActionType.WITCH_KILL => a.targetId
  | _ => none

/-- The save target an action contributes to the `saved` list of
`processNightActions`: the non-null target of a `DOCTOR_SAVE` or
`WITCH_SAVE`. -/
def saveSelect (a : GameAction) : Option String :=
  match a.action with
  | ActionType.DOCTOR_SAVE => a.targetId
  | ActionType.WITCH_SAVE => a.targetId
  | _ => none

/-- The kill targets `processNightActions` pushes onto `killed`, in
iteration order: non-null targets of `WEREWOLF_KILL` and `WITCH_KILL`
actions among the unprocessed night actions. -/
def killedIds (g : Game) : List String :=
  (g.actions.filter (nightActionFilter g)).filterMap killSelect

/-- The save targets `processNightActions` pushes onto `saved`:
non-null targets of `DOCTOR_SAVE` and `WITCH_SAVE` actions among the
unprocessed night actions. -/
def savedIds (g : Game) : List String :=
  (g.actions.filter (nightActionFilter g)).filterMap saveSelect

/-- The witch-potion `updateRoleState` performed inside the action loop of
`processNightActions`: the role state is looked up by `playerId` on the
fetched `game` object and updated in the DB by its unique `id`. -/
def witchFlagUpdate (orig : Game) (db : Game) (actorId : String)
    (setHeal : Bool) : Game :=
  match orig.roleStates.find? (fun rs => rs.playerId == actorId) with
  | none => db
  | some rs =>
      { db with roleStates := db.roleStates.map fun s =>
          if s.id == rs.id then
            (if setHeal then { s with healPotionUsed := true }
             else { s with poisonPotionUsed := true })
          else s }

/-- One iteration of the `for (const action of nightActions)` loop in
`processNightActions`: collect the kill/save target, flip a witch potion
flag where applicable, and mark the action processed in the DB. -/
def nightActionStep (orig : Game) (acc : List String × List String × Game)
    (a : GameAction) : List String × List String × Game :=
  let killed := acc.1
  let saved := acc.2.1
  let db := acc.2.2
  let acc1 : List String × List String × Game :=
    match a.action with
    | ActionType.WEREWOLF_KILL =>
        match a.targetId with
        | some t => (killed ++ [t], saved, db)
        | none => (killed, saved, db)
    | ActionType.DOCTOR_SAVE =>
        match a.targetId with
        | some t => (killed, saved ++ [t], db)
        | none => (killed, saved, db)
    | ActionType.WITCH_SAVE =>
        match a.targetId with
        | some t => (killed, saved ++ [t], witchFlagUpdate orig db a.playerId true)
        | none => (killed, saved, db)
    | ActionType.WITCH_KILL =>
        match a.targetId with
        | some t => (killed ++ [t], saved, witchFlagUpdate orig db a.playerId false)
        | none => (killed, saved, db)
    | _ => (killed, saved, db)
  (acc1.1, acc1.2.1,
    { acc1.2.2 with actions := acc1.2.2.actions.map fun b =>
        if b.id == a.id then { b with processed := true } else b })

/-- One iteration of the kill loop of `processNightActions`: mark the
player dead, emit the PUBLIC `PLAYER_KILLED` event (player data looked up
on the fetched `game` object `orig`), and cascade to a lover partner. -/
def killPlayerStep (orig : Game) (st : Game × List GameEvent)
    (pid : String) : Game × List GameEvent :=
  let db1 := { st.1 with players := killById st.1.players pid }
  match orig.players.find? (fun p => p.id == pid) with
  | none => (db1, st.2)
  | some player =>
      let evs1 := st.2 ++
        [{ type := EventType.PLAYER_KILLED, visibility := EventVisibility.PUBLIC,
           visibleTo := [],
           data := EventData.playerKilled pid player.nickname "werewolf",
           dayNumber := orig.dayNumber, phase := orig.phase }]
      match findLoverPair db1 pid with
      | none => (db1, evs1)
      | some lp =>
          let otherId := if lp.player1Id == pid then lp.player2Id else lp.player1Id
          let db2 := { db1 with players := killById db1.players otherId }
          match orig.players.find? (fun p => p.id == otherId) with
          | none => (db2, evs1)
          | some other =>
              (db2, evs1 ++
                [{ type := EventType.PLAYER_KILLED,
                   visibility := EventVisibility.PUBLIC, visibleTo := [],
                   data := EventData.playerKilled otherId other.nickname "heartbreak",
                   dayNumber := orig.dayNumber, phase := orig.phase }])

/-- `GameService.processNightActions(game)`.  Returns the post-call DB
state together with the `events` array the method returns. -/
def processNightActions (g : Game) : Game × List GameEvent :=
  let nightActions := g.actions.filter (nightActionFilter g)
  let acc := nightActions.foldl (nightActionStep g) ([], [], g)
  let actuallyKilled := acc.1.filter fun i => !acc.2.1.contains i
  actuallyKilled.foldl (killPlayerStep g) (acc.2.2, [])

/-- The current-day VOTING votes `GameService.processVotes` tallies. -/
def currentVotes (g : Game) : List Vote :=
  g.votes.filter fun v => v.dayNumber == g.dayNumber && v.phase == GamePhase.VOTING

/-- `voteCount.set(t, (voteCount.get(t) || 0) + 1)` on a JS `Map`:
update the existing entry in place, else append (insertion order). -/
def bump : List (String × Nat) → String → List (String × Nat)
  | [], t => [(t, 1)]
  | (s, c) :: rest, t =>
      if s == t then (s, c + 1) :: rest else (s, c) :: bump rest t

/-- The `voteCount` map of `processVotes`: non-null targets of the current
phase/day votes, tallied in insertion order. -/
def voteCount (g : Game) : List (String × Nat) :=
  ((currentVotes g).filterMap Vote.targetId).foldl bump []

/-- One iteration of the `for (const [playerId, count] of voteCount)` max
loop of `processVotes`. -/
def maxStep (acc : Nat × List String) (e : String × Nat) : Nat × List String :=
  if e.2 > acc.1 then (e.2, [e.1])
  else if e.2 == acc.1 then (acc.1, acc.2 ++ [e.1])
  else acc

/-- The `maxVotes` / `eliminated` pair computed by the max loop of
`processVotes`. -/
def findEliminated (m : List (String × Nat)) : Nat × List String :=
  m.foldl maxStep (0, [])

/-- `GameService.processVotes(game)`.  Returns the post-call DB state
together with the `events` array the method returns. -/
def processVotes (g : Game) : Game × List GameEvent :=
  let tally := voteCount g
  let mv := findEliminated tally
  if mv.2.length == 1 && mv.1 > 0 then
    let pid := mv.2.headD ""
    let db1 := { g with players := killById g.players pid }
    match g.players.find? (fun p => p.id == pid) with
    | none => (db1, [])
    | some player =>
        let elimEv : GameEvent :=
          { type := EventType.PLAYER_ELIMINATED,
            visibility := EventVisibility.PUBLIC, visibleTo := [],
            data := EventData.playerEliminated pid player.nickname mv.1,
            dayNumber := g.dayNumber, phase := g.phase }
        let hunterEvs : List GameEvent :=
          if player.role == some Role.HUNTER then
            match g.roleStates.find? (fun rs => rs.playerId == player.id) with
            | some rs =>
                if !rs.hasShot then
                  [{ type := EventType.HUNTER_TRIGGERED,
                     visibility := EventVisibility.PRIVATE,
                     visibleTo := [player.userId],
                     data := EventData.hunterTriggered "You can now shoot someone",
                     dayNumber := g.dayNumber, phase := g.phase }]
                else []
            | none => []
          else []
        match findLoverPair db1 pid with
        | none => (db1, [elimEv] ++ hunterEvs)
        | some lp =>
            let otherId := if lp.player1Id == pid then lp.player2Id else lp.player1Id
            let db2 := { db1 with players := killById db1.players otherId }
            match g.players.find? (fun p => p.id == otherId) with
            | none => (db2, [elimEv] ++ hunterEvs)
            | some other =>
                (db2, [elimEv] ++ hunterEvs ++
                  [{ type := EventType.PLAYER_KILLED,
                     visibility := EventVisibility.PUBLIC, visibleTo := [],
                     data := EventData.playerKilled otherId other.nickname "heartbreak",
                     dayNumber := g.dayNumber, phase := g.phase }])
  else (g, [])

/-- The `alivePlayers` list computed at the head of
`GameService.checkWinConditions`. -/
def alivePlayers (g : Game) : List GamePlayer :=
  g.players.filter fun p => p.isAlive

/-- The `aliveWerewolves` list of `GameService.checkWinConditions`
(`p.role === Role.WEREWOLF`). -/
def aliveWerewolves (g : Game) : List GamePlayer :=
  (alivePlayers g).filter fun p => p.role == some Role.WEREWOLF

/-- The `aliveVillagers` list of `GameService.checkWinConditions`
(`p.role !== Role.WEREWOLF`, so a role-less player counts as villager). -/
def aliveVillagers (g : Game) : List GamePlayer :=
  (alivePlayers g).filter fun p => !(p.role == some Role.WEREWOLF)

/-- `GameService.checkWinConditions(game)`. -/
def checkWinConditions (g : Game) : WinConditionCheck :=
  let alivePlayers := alivePlayers g
  let aliveWerewolves := aliveWerewolves g
  let aliveVillagers := aliveVillagers g
  if aliveWerewolves.length == 0 then
    { gameEnded := true, winningSide := some Side.VILLAGE,
      winners := some (aliveVillagers.map GamePlayer.userId) }
  else if aliveWerewolves.length >= aliveVillagers.length then
    { gameEnded := true, winningSide := some Side.WEREWOLF,
      winners := some (aliveWerewolves.map GamePlayer.userId) }
  else if alivePlayers.length == 2 then
    match g.loverPairs.head? with
    | some lp =>
        if (alivePlayers.any fun p => p.id == lp.player1Id) &&
           (alivePlayers.any fun p => p.id == lp.player2Id) then
          { gameEnded := true, winningSide := some Side.LOVERS,
            winners := some
              (([(alivePlayers.find? fun p => p.id == lp.player1Id),
                 (alivePlayers.find? fun p => p.id == lp.player2Id)]).filterMap
                 fun o => o.map GamePlayer.userId) }
        else { gameEnded := false, winningSide := none, winners := none }
    | none => { gameEnded := false, winningSide := none, winners := none }
  else { gameEnded := false, winningSide := none, winners := none }

/-- The tail of `GameService.processPhaseEnd` after the phase switch:
win check on the stale fetched snapshot `g`, then either the game-over
commit or the phase advance with a new timer.  `db1` is the DB state
after the resolution performed by the switch, `events` the resolution
events. -/
def finishPhaseEnd (g : Game) (db1 : Game) (events : List GameEvent)
    (newPhase : GamePhase) (dayNumber : Nat) :
    Except GameErr (Game × PhaseEndResult) :=
  let winCheck := checkWinConditions g
  if winCheck.gameEnded then
    let db2 :=
      { db1 with
        status := GameStatus.COMPLETED
        phase := GamePhase.GAME_OVER
        winningSide := winCheck.winningSide }
    let db3 := appendEvent db2 EventType.GAME_ENDED EventVisibility.PUBLIC []
      (EventData.gameEnded winCheck.winningSide (winCheck.winners.getD []))
    Except.ok (db3,
      { newPhase := GamePhase.GAME_OVER, dayNumber := dayNumber,
        events := events, gameEnded := true,
        winningSide := winCheck.winningSide, winners := winCheck.winners })
  else
    let db2 := { db1 with phase := newPhase, dayNumber := dayNumber }
    let db3 := appendEvent db2 EventType.PHASE_CHANGED EventVisibility.PUBLIC []
      (EventData.phaseChanged newPhase dayNumber)
    let duration :=
      if newPhase == GamePhase.DISCUSSION then g.settings.discussionTime
      else if newPhase == GamePhase.VOTING then g.settings.votingTime
      else g.settings.nightTime
    let db4 := { db3 with timers := db3.timers ++
        [{ id := "", phase := newPhase, dayNumber := dayNumber,
           startedAt := 0, duration := duration, pausedAt := none }] }
    Except.ok (db4,
      { newPhase := newPhase, dayNumber := dayNumber, events := events,
        gameEnded := false, winningSide := none, winners := none })

/-- `GameService.processPhaseEnd(gameId)`; `g` is the game the repository
fetch returns. -/
def processPhaseEnd (g : Game) : Except GameErr (Game × PhaseEndResult) :=
  match g.phase with
  | GamePhase.NIGHT =>
      let r := processNightActions g
      finishPhaseEnd g r.1 r.2 GamePhase.DISCUSSION g.dayNumber
  | GamePhase.DISCUSSION =>
      finishPhaseEnd g g [] GamePhase.VOTING g.dayNumber
  | GamePhase.VOTING =>
      let r := processVotes g
      finishPhaseEnd g r.1 r.2 GamePhase.NIGHT (g.dayNumber + 1)
  | _ => Except.error (GameErr.validationError "Invalid phase for processing")

/-- The vote-target validation block of `GameService.castVote`: a null
target (an explicit skip) is fine, otherwise the target must exist and
be alive. -/
def voteTargetOk (g : Game) (targetId : Option String) : Bool :=
  match targetId with
  | none => true
  | some tid =>
      match g.players.find? (fun p => p.id == tid) with
      | none => false
      | some target => target.isAlive

/-- `GameService.castVote(gameId, userId, targetId)`; `g` is the fetched
game, `freshVoteId` the id the DB would generate for a created row.
Returns the post-call DB state and either the thrown error or the
`VoteResult` (the vote and the `allVoted` flag). -/
def castVote (g : Game) (userId : String) (targetId : Option String)
    (freshVoteId : String) : Game × Except GameErr (Vote × Bool) :=
  if !(g.phase == GamePhase.VOTING) then
    (g, Except.error (GameErr.validationError "Not in voting phase"))
  else
    match g.players.find? (fun p => p.userId == userId) with
    | none => (g, Except.error (GameErr.validationError "You cannot vote"))
    | some voter =>
        if !voter.isAlive then
          (g, Except.error (GameErr.validationError "You cannot vote"))
        else
          if !(voteTargetOk g targetId) then
            (g, Except.error (GameErr.validationError "Invalid vote target"))
          else
            let allVoted (db : Game) : Bool :=
              ((db.votes.filter fun v =>
                  v.phase == g.phase && v.dayNumber == g.dayNumber).length ==
                (g.players.filter fun p => p.isAlive).length)
            match g.votes.find? (fun v => v.voterId == voter.id &&
                v.dayNumber == g.dayNumber && v.phase == g.phase) with
            | some existingVote =>
                let db1 := { g with votes := g.votes.map fun v =>
                    if v.id == existingVote.id then { v with targetId := targetId }
                    else v }
                (db1, Except.ok ({ existingVote with targetId := targetId },
                  allVoted db1))
            | none =>
                let vote : Vote :=
                  { id := freshVoteId, voterId := voter.id, targetId := targetId,
                    phase := g.phase, dayNumber := g.dayNumber, round := 1 }
                let db1 := { g with votes := g.votes ++ [vote] }
                (db1, Except.ok (vote, allVoted db1))

/-- The `validActions` table of `GameService.isValidActionForRole`. -/
def validActions (r : Role) : List ActionType :=
  match r with
  | Role.WEREWOLF => [ActionType.WEREWOLF_KILL]
  | Role.SEER => [ActionType.SEER_CHECK]
  | Role.DOCTOR => [ActionType.DOCTOR_SAVE]
  | Role.WITCH => [ActionType.WITCH_KILL, ActionType.WITCH_SAVE]
  | Role.HUNTER => [ActionType.HUNTER_SHOOT]
  | Role.CUPID => [ActionType.CUPID_LINK]
  | Role.VILLAGER => []
  | Role.LITTLE_GIRL => []
  | Role.THIEF => [ActionType.THIEF_CHOOSE]
  | Role.SHERIFF => [ActionType.SHERIFF_REVEAL]

/-- `GameService.isValidActionForRole(role, action)`. -/
def isValidActionForRole (r : Role) (a : ActionType) : Bool :=
  (validActions r).contains a

/-- `GameService.validateActionAvailable(roleState, action)`: the error it
throws when a one-time resource is already used, if any. -/
def validateActionAvailable (rs : RoleState) (a : ActionType) : Option GameErr :=
  match a with
  | ActionType.WITCH_SAVE =>
      if rs.healPotionUsed then
        some (GameErr.validationError "Heal potion already used")
      else none
  | ActionType.WITCH_KILL =>
      if rs.poisonPotionUsed then
        some (GameErr.validationError "Poison potion already used")
      else none
  | ActionType.HUNTER_SHOOT =>
      if rs.hasShot then
        some (GameErr.validationError "Hunter has already shot")
      else none
  | _ => none

/-- The `actionResult` payloads of `GameService.getActionResult`. -/
inductive ActionOutcomeData
  | seerCheck (targetRole : Option Role) (isWerewolf : Bool)
  | cupidLink
  | empty
deriving DecidableEq

/-- `GameService.getActionResult(role, action, target, game)` (only the
action type and the target are read). -/
def getActionResult (a : ActionType) (target : GamePlayer) : ActionOutcomeData :=
  match a with
  | ActionType.SEER_CHECK =>
      ActionOutcomeData.seerCheck target.role (target.role == some Role.WEREWOLF)
  | ActionType.CUPID_LINK => ActionOutcomeData.cupidLink
  | _ => ActionOutcomeData.empty

/-- `GameService.checkAllNightActionsComplete(game)`. -/
def checkAllNightActionsComplete (g : Game) : Bool :=
  let aliveWerewolves := g.players.filter fun p =>
    p.isAlive && p.role == some Role.WEREWOLF
  let werewolfActions := g.actions.filter fun a =>
    a.dayNumber == g.dayNumber && a.phase == GamePhase.NIGHT &&
    a.action == ActionType.WEREWOLF_KILL && !a.processed
  if werewolfActions.length == 0 && aliveWerewolves.length > 0 then false
  else
    [Role.SEER, Role.DOCTOR].all fun role =>
      match g.players.find? (fun p => p.isAlive && p.role == some role) with
      | some player =>
          g.actions.any fun a =>
            a.playerId == player.id && a.dayNumber == g.dayNumber &&
            a.phase == GamePhase.NIGHT && !a.processed
      | none => true

/-- `GameService.performNightAction(gameId, userId, action, targetId,
secondaryTargetId)`; `g` is the fetched game.  Returns the post-call DB
state and either the thrown error or the `ActionResult` triple. -/
def performNightAction (g : Game) (userId : String) (action : ActionType)
    (targetId : String) (secondaryTargetId : Option String)
    (freshActionId : String) :
    Game × Except GameErr (GameAction × ActionOutcomeData × Bool) :=
  if !(g.phase == GamePhase.NIGHT) then
    (g, Except.error (GameErr.validationError "Not in night phase"))
  else
    match g.players.find? (fun p => p.userId == userId) with
    | none => (g, Except.error (GameErr.validationError "You cannot perform actions"))
    | some player =>
        if !player.isAlive then
          (g, Except.error (GameErr.validationError "You cannot perform actions"))
        else
          match player.role with
          | none => (g, Except.error (GameErr.validationError "You cannot perform actions"))
          | some role =>
              if !isValidActionForRole role action then
                (g, Except.error (GameErr.validationError "Invalid action for your role"))
              else
                match g.roleStates.find? (fun rs => rs.playerId == player.id) with
                | none => (g, Except.error (GameErr.validationError "Role state not found"))
                | some roleState =>
                    match validateActionAvailable roleState action with
                    | some e => (g, Except.error e)
                    | none =>
                        match g.players.find? (fun p => p.id == targetId) with
                        | none => (g, Except.error (GameErr.validationError "Invalid target"))
                        | some target =>
                            if !target.isAlive then
                              (g, Except.error (GameErr.validationError "Invalid target"))
                            else
                              let secOk : Bool :=
                                match secondaryTargetId with
                                | none => true
                                | some sid =>
                                    match g.players.find? (fun p => p.id == sid) with
                                    | none => false
                                    | some st => st.isAlive
                              if !secOk then
                                (g, Except.error (GameErr.validationError "Invalid secondary target"))
                              else
                                match g.actions.find? (fun a =>
                                    a.playerId == player.id &&
                                    a.dayNumber == g.dayNumber &&
                                    a.phase == g.phase && !a.processed) with
                                | some _ =>
                                    (g, Except.error (GameErr.validationError
                                      "You have already performed an action this phase"))
                                | none =>
                                    let gameAction : GameAction :=
                                      { id := freshActionId, playerId := player.id,
                                        action := action, targetId := some targetId,
                                        secondaryTargetId := secondaryTargetId,
                                        phase := g.phase, dayNumber := g.dayNumber,
                                        processed := false }
                                    let db1 := { g with actions := g.actions ++ [gameAction] }
                                    (db1, Except.ok (gameAction,
                                      getActionResult action target,
                                      checkAllNightActionsComplete g))

/-- `GameService.findNextPlayerNumber(existingNumbers)`: the lowest
i ∈ [1, length + 1] not already taken (the source's sort does not affect
the membership tests). -/
def findNextPlayerNumber (existingNumbers : List Nat) : Nat :=
  match (List.range' 1 (existingNumbers.length + 1)).find?
      (fun i => !existingNumbers.contains i) with
  | some i => i
  | none => existingNumbers.length + 1

/-- `GameService.joinGame(code, userId, nickname)`; `g` is the game the
repository lookup by code returns.  Returns the post-call DB state and
either the thrown error or the `{ game, player }` pair the method
returns (for an existing member, the originally fetched objects). -/
def joinGame (g : Game) (userId : String) (nickname : String)
    (freshPlayerId : String) : Game × Except GameErr (Game × GamePlayer) :=
  match g.players.find? (fun p => p.userId == userId) with
  | some existingPlayer =>
      if existingPlayer.disconnectedAt.isSome then
        let db1 := { g with players := g.players.map fun p =>
            if p.id == existingPlayer.id then { p with disconnectedAt := none }
            else p }
        let db2 := appendEvent db1 EventType.PLAYER_RECONNECTED
          EventVisibility.PUBLIC []
          (EventData.playerReconnected existingPlayer.id existingPlayer.nickname)
        (db2, Except.ok (g, existingPlayer))
      else (g, Except.ok (g, existingPlayer))
  | none =>
      if !(g.status == GameStatus.LOBBY) then
        (g, Except.error (GameErr.gameError ErrorCode.GAME_ALREADY_STARTED
          "Game has already started"))
      else if g.players.length >= g.settings.maxPlayers then
        (g, Except.error (GameErr.gameError ErrorCode.GAME_FULL "Game is full"))
      else
        let playerNumber := findNextPlayerNumber (g.players.map GamePlayer.playerNumber)
        let newPlayer : GamePlayer :=
          { id := freshPlayerId, userId := userId, nickname := nickname,
            playerNumber := playerNumber, role := none, isAlive := true,
            isHost := false, disconnectedAt := none }
        let db1 := { g with players := g.players ++ [newPlayer] }
        let db2 := appendEvent db1 EventType.PLAYER_JOINED EventVisibility.PUBLIC []
          (EventData.playerJoined newPlayer.id nickname)
        (db2, Except.ok (db2, newPlayer))

end GameService

/-- One swap of the in-place Fisher–Yates loop: exchange positions `i`
and `j` of the array. -/
def listSwap (l : List Role) (i j : Nat) : List Role :=
  match l[i]?, l[j]? with
  | some a, some b => (l.set i b).set j a
  | _, _ => l

/-- The Fisher–Yates loop `for (let i = length - 1; i > 0; i--)`, with the
random draw `Math.floor(Math.random() * (i + 1))` supplied by `rand`
(clamped into the range `[0, i]` the real draw always lies in). -/
def fisherYatesAux (rand : Nat → Nat) : Nat → List Role → List Role
  | 0, l => l
  | i + 1, l => fisherYatesAux rand i (listSwap l (i + 1) (min (rand (i + 1)) (i + 1)))

/-- The `for (const [role, count] of Object.entries(roleConfig))` push loop
shared by both `assignRoles` implementations. -/
def flattenRoles (roleConfig : List (Role × Nat)) : List Role :=
  roleConfig.foldl (fun acc rc => acc ++ List.replicate rc.2 rc.1) []

/-- `GameService.assignRoles(playerCount, roleConfig)` of
`packages/backend/src/modules/game/game.service.ts`: flatten, pad with
villagers while short, shuffle.  There is no trimming step. -/
def GameService.assignRoles (rand : Nat → Nat) (playerCount : Nat)
    (roleConfig : List (Role × Nat)) : List Role :=
  let roles := flattenRoles roleConfig
  let padded := roles ++ List.replicate (playerCount - roles.length) Role.VILLAGER
  fisherYatesAux rand (padded.length - 1) padded

namespace GameManager

/-- `roles.splice(roles.lastIndexOf(Role.VILLAGER), 1)`: remove the last
`VILLAGER` entry. -/
def removeLastVillager (l : List Role) : List Role :=
  (l.reverse.erase Role.VILLAGER).reverse

/-- One iteration of `GameManager.assignRoles`' trim loop: remove the last
`VILLAGER` if one exists, else pop the last entry. -/
def trimStep (l : List Role) : List Role :=
  if l.contains Role.VILLAGER then removeLastVillager l else l.dropLast

/-- The `while (roles.length > playerCount)` trim loop of
`GameManager.assignRoles`, with an explicit iteration bound (the loop
removes one entry per iteration, so `l.length` iterations always
suffice). -/
def trimRolesAux : Nat → List Role → Nat → List Role
  | 0, l, _ => l
  | fuel + 1, l, n => if l.length > n then trimRolesAux fuel (trimStep l) n else l

/-- The trim loop of `GameManager.assignRoles`: remove the last
`VILLAGER` entry (or, failing that, the last entry) while the list is
longer than `playerCount`. -/
def trimRoles (l : List Role) (n : Nat) : List Role :=
  trimRolesAux l.length l n

/-- `GameManager.assignRoles(playerCount, roleConfig)` of
`backend/src/services/gameManager.ts`: flatten, trim when too long
(villagers from the end first, then arbitrary entries), pad with
villagers when too short, shuffle. -/
def assignRoles (rand : Nat → Nat) (playerCount : Nat)
    (roleConfig : List (Role × Nat)) : List Role :=
  let roles := flattenRoles roleConfig
  let adjusted :=
    if roles.length > playerCount then trimRoles roles playerCount
    else roles ++ List.replicate (playerCount - roles.length) Role.VILLAGER
  fisherYatesAux rand (adjusted.length - 1) adjusted

end GameManager

/-- The per-player entry of `GameStateForPlayer.players` in
`game.types.ts`. -/
structure PlayerView where
  id : String
  userId : String
  nickname : String
  isHost : Bool
  isAlive : Bool
  playerNumber : Nat
  isConnected : Bool
  role : Option Role
deriving DecidableEq

/-- `GameStateForPlayer` of `game.types.ts` (`currentTimer` as a
`startedAt × duration` pair). -/
structure GameStateForPlayer where
  id : String
  code : String
  status : GameStatus
  phase : GamePhase
  dayNumber : Nat
  settings : GameSettings
  locale : String
  currentTimer : Option (Nat × Nat)
  players : List PlayerView
  myRole : Option Role
  myRoleState : Option RoleState
deriving DecidableEq

/-- `toGameStateForPlayer(game, viewerId)` of
`packages/backend/src/common/types/mapper.ts`. -/
def toGameStateForPlayer (g : Game) (viewerId : String) : GameStateForPlayer :=
  let viewer := g.players.find? fun p => p.userId == viewerId
  let viewerRoleState :=
    match viewer with
    | some v => g.roleStates.find? fun rs => rs.playerId == v.id
    | none => none
  { id := g.id, code := g.code, status := g.status, phase := g.phase,
    dayNumber := g.dayNumber, settings := g.settings, locale := g.locale,
    currentTimer :=
      if (g.timers.find? fun t =>
          t.phase == g.phase && t.dayNumber == g.dayNumber &&
          t.pausedAt.isNone).isSome then
        g.timers.head?.map fun t0 => (t0.startedAt, t0.duration)
      else none,
    players := g.players.map fun p =>
      { id := p.id, userId := p.userId, nickname := p.nickname,
        isHost := p.isHost, isAlive := p.isAlive,
        playerNumber := p.playerNumber,
        isConnected := !p.disconnectedAt.isSome,
        role := if p.userId == viewerId then p.role else none },
    myRole := viewer.bind GamePlayer.role,
    myRoleState := viewerRoleState }

/-- Spec-side count used to state the vote-resolution claim: the number of
current-phase/day votes naming `t` (votes with a null target are skips and
count for nobody). -/
def targetCount (g : Game) (t : String) : Nat :=
  ((GameService.currentVotes g).filterMap Vote.targetId).count t

/-- Spec-side lookup in the association-list model of the JS `Map`: the
count recorded for target `t`, if any. -/
def lookupCount (m : List (String × Nat)) (t : String) : Option Nat :=
  (m.find? fun e => e.1 == t).map fun e => e.2

/-- Spec-side maximum of the counts recorded in the tally. -/
def maxCount (m : List (String × Nat)) : Nat :=
  m.foldl (fun acc e => max acc e.2) 0

/-- Spec-side relation for the hidden-information claim: the two player
lists agree entry by entry on every field except that the `role` of a
player other than the viewer may differ. -/
def playersAgreeExceptRole (vid : String) :
    List GamePlayer → List GamePlayer → Bool
  | [], [] => true
  | p :: ps, q :: qs =>
      p.id == q.id && p.userId == q.userId && p.nickname == q.nickname &&
      p.playerNumber == q.playerNumber && p.isAlive == q.isAlive &&
      p.isHost == q.isHost && p.disconnectedAt == q.disconnectedAt &&
      (!(p.userId == vid) || p.role == q.role) &&
      playersAgreeExceptRole vid ps qs
  | _, _ => false

/-- Spec-side relation for the hidden-information claim: the two role-state
lists agree entry by entry on `playerId`, and agree entirely on any entry
belonging to the viewer's player id. -/
def roleStatesAgreeExcept (viewerPid : Option String) :
    List RoleState → List RoleState → Bool
  | [], [] => true
  | r :: rs, s :: ss =>
      r.playerId == s.playerId &&
      (!(some r.playerId == viewerPid) || r == s) &&
      roleStatesAgreeExcept viewerPid rs ss
  | _, _ => false

/-! Concrete fixtures used by the counterexamples and witnesses. -/

/-- A settings record matching `DEFAULT_GAME_SETTINGS`. -/
def baseSettings : GameSettings :=
  { minPlayers := 5, maxPlayers := 20, discussionTime := 180, votingTime := 60,
    nightTime := 30, roles := [(Role.WEREWOLF, 1), (Role.SEER, 1)] }

def mkPlayer (id uid : String) (n : Nat) (nick : String) (r : Option Role)
    (alive : Bool) : GamePlayer :=
  { id := id, userId := uid, playerNumber := n, nickname := nick, role := r,
    isAlive := alive, isHost := false, disconnectedAt := none }

/-- An in-progress game's skeleton: first night of day 1, no relations. -/
def emptyGame : Game :=
  { id := "g1", code := "ABC123", status := GameStatus.IN_PROGRESS,
    phase := GamePhase.NIGHT, dayNumber := 1, settings := baseSettings,
    locale := "en", winningSide := none, players := [], events := [],
    votes := [], actions := [], roleStates := [], timers := [], loverPairs := [] }

/-- Night of day 1: the witch poisons the only werewolf.  Post-resolution
there are zero alive werewolves, but the stale snapshot the win check
reads still shows the werewolf alive. -/
def gStaleWin : Game :=
  { emptyGame with
    players := [mkPlayer "W" "uW" 1 "wolf" (some Role.WEREWOLF) true,
                mkPlayer "H" "uH" 2 "witch" (some Role.WITCH) true,
                mkPlayer "V" "uV" 3 "vera" (some Role.VILLAGER) true]
    actions := [{ id := "a1", playerId := "H", action := ActionType.WITCH_KILL,
                  targetId := some "W", secondaryTargetId := none,
                  phase := GamePhase.NIGHT, dayNumber := 1, processed := false }]
    roleStates := [{ id := "rsH", playerId := "H", role := Role.WITCH,
                     healPotionUsed := false, poisonPotionUsed := false,
                     hasShot := false, isLover := false }] }

/-- Night of day 1: player `A` is targeted by two kills (werewolf and
witch) and one save (doctor). -/
def gTwoKillsOneSave : Game :=
  { emptyGame with
    players := [mkPlayer "W" "uW" 1 "wolf" (some Role.WEREWOLF) true,
                mkPlayer "H" "uH" 2 "witch" (some Role.WITCH) true,
                mkPlayer "D" "uD" 3 "doc" (some Role.DOCTOR) true,
                mkPlayer "A" "uA" 4 "ann" (some Role.VILLAGER) true]
    actions := [{ id := "a1", playerId := "W", action := ActionType.WEREWOLF_KILL,
                  targetId := some "A", secondaryTargetId := none,
                  phase := GamePhase.NIGHT, dayNumber := 1, processed := false },
                { id := "a2", playerId := "H", action := ActionType.WITCH_KILL,
                  targetId := some "A", secondaryTargetId := none,
                  phase := GamePhase.NIGHT, dayNumber := 1, processed := false },
                { id := "a3", playerId := "D", action := ActionType.DOCTOR_SAVE,
                  targetId := some "A", secondaryTargetId := none,
                  phase := GamePhase.NIGHT, dayNumber := 1, processed := false }]
    roleStates := [{ id := "rsH", playerId := "H", role := Role.WITCH,
                     healPotionUsed := false, poisonPotionUsed := false,
                     hasShot := false, isLover := false }] }

/-- The last two alive players are a declared lover pair, and one of them
is a werewolf. -/
def gWolfLover : Game :=
  { emptyGame with
    players := [mkPlayer "A" "uA" 1 "alice" (some Role.WEREWOLF) true,
                mkPlayer "B" "uB" 2 "bob" (some Role.VILLAGER) true,
                mkPlayer "C" "uC" 3 "carol" (some Role.VILLAGER) false]
    loverPairs := [{ id := "lp1", player1Id := "A", player2Id := "B" }] }

/-- Voting of day 1: `A` has a unique strict maximum of 2 votes, and `A`
is one half of a lover pair with `B`. -/
def gLoverVote : Game :=
  { emptyGame with
    phase := GamePhase.VOTING
    players := [mkPlayer "A" "uA" 1 "ann" (some Role.VILLAGER) true,
                mkPlayer "B" "uB" 2 "ben" (some Role.VILLAGER) true,
                mkPlayer "C" "uC" 3 "cid" (some Role.VILLAGER) true,
                mkPlayer "D" "uD" 4 "dan" (some Role.WEREWOLF) true]
    votes := [{ id := "v1", voterId := "C", targetId := some "A",
                phase := GamePhase.VOTING, dayNumber := 1, round := 1 },
              { id := "v2", voterId := "D", targetId := some "A",
                phase := GamePhase.VOTING, dayNumber := 1, round := 1 },
              { id := "v3", voterId := "A", targetId := some "C",
                phase := GamePhase.VOTING, dayNumber := 1, round := 1 }]
    loverPairs := [{ id := "lp1", player1Id := "A", player2Id := "B" }] }

/-- Voting of day 1 without lover pairs: `A` has a unique strict maximum
of 2 votes. -/
def gPlainVote : Game :=
  { emptyGame with
    phase := GamePhase.VOTING
    players := [mkPlayer "A" "uA" 1 "ann" (some Role.VILLAGER) true,
                mkPlayer "B" "uB" 2 "ben" (some Role.VILLAGER) true,
                mkPlayer "C" "uC" 3 "cid" (some Role.WEREWOLF) true]
    votes := [{ id := "v1", voterId := "B", targetId := some "A",
                phase := GamePhase.VOTING, dayNumber := 1, round := 1 },
              { id := "v2", voterId := "C", targetId := some "A",
                phase := GamePhase.VOTING, dayNumber := 1, round := 1 },
              { id := "v3", voterId := "A", targetId := some "B",
                phase := GamePhase.VOTING, dayNumber := 1, round := 1 }]
    roleStates := [] }

/-- Night of day 1 whose only night action is already processed. -/
def gNightDone : Game :=
  { emptyGame with
    players := [mkPlayer "W" "uW" 1 "wolf" (some Role.WEREWOLF) true,
                mkPlayer "V" "uV" 2 "vera" (some Role.VILLAGER) true]
    actions := [{ id := "a1", playerId := "W", action := ActionType.WEREWOLF_KILL,
                  targetId := some "V", secondaryTargetId := none,
                  phase := GamePhase.NIGHT, dayNumber := 1, processed := true }] }

/-- A voting-phase game with two alive players and no votes yet. -/
def gVoteTwice : Game :=
  { emptyGame with
    phase := GamePhase.VOTING
    players := [mkPlayer "P1" "u1" 1 "pam" (some Role.VILLAGER) true,
                mkPlayer "P2" "u2" 2 "pat" (some Role.WEREWOLF) true] }

/-- A discussion-phase game: neither voting nor night actions are legal. -/
def gWrongPhase : Game :=
  { emptyGame with
    phase := GamePhase.DISCUSSION
    players := [mkPlayer "P1" "u1" 1 "pam" (some Role.VILLAGER) true,
                mkPlayer "P2" "u2" 2 "pat" (some Role.WEREWOLF) true] }

/-- A snapshot with two players and both their role states. -/
def gViewA : Game :=
  { emptyGame with
    players := [mkPlayer "P1" "u1" 1 "pam" (some Role.SEER) true,
                mkPlayer "P2" "u2" 2 "pat" (some Role.WEREWOLF) true]
    roleStates := [{ id := "rs1", playerId := "P1", role := Role.SEER,
                     healPotionUsed := false, poisonPotionUsed := false,
                     hasShot := false, isLover := false },
                   { id := "rs2", playerId := "P2", role := Role.WEREWOLF,
                     healPotionUsed := false, poisonPotionUsed := false,
                     hasShot := false, isLover := false }] }

/-- `gViewA` with the other player's hidden information changed: `P2` is a
`WITCH` whose heal potion is spent. -/
def gViewB : Game :=
  { emptyGame with
    players := [mkPlayer "P1" "u1" 1 "pam" (some Role.SEER) true,
                mkPlayer "P2" "u2" 2 "pat" (some Role.WITCH) true]
    roleStates := [{ id := "rs1", playerId := "P1", role := Role.SEER,
                     healPotionUsed := false, poisonPotionUsed := false,
                     hasShot := false, isLover := false },
                   { id := "rs2", playerId := "P2", role := Role.WITCH,
                     healPotionUsed := true, poisonPotionUsed := false,
                     hasShot := false, isLover := false }] }

/-- An in-progress game that is also at its `maxPlayers` capacity, with
`u2` already a (currently disconnected) member. -/
def gFullGame : Game :=
  { emptyGame with
    settings := { baseSettings with maxPlayers := 2 }
    players := [mkPlayer "P1" "u1" 1 "pam" (some Role.VILLAGER) true,
                { mkPlayer "P2" "u2" 2 "pat" (some Role.WEREWOLF) true with
                  disconnectedAt := some 42 }] }

/-! General list lemmas. -/

theorem length_filter_partition {α : Type} (l : List α) (p : α → Bool) :
    (l.filter p).length + (l.filter fun x => !(p x)).length = l.length := by
  induction l with
  | nil => rfl
  | cons x xs ih =>
      by_cases h : p x = true <;>
        simp [List.filter_cons, h, ← ih] <;> omega

theorem trimStep_length (l : List Role) :
    (GameManager.trimStep l).length = l.length - 1 := by
  unfold GameManager.trimStep
  split
  · next hc =>
      have hm : Role.VILLAGER ∈ l.reverse := by
        rw [List.mem_reverse]
        simpa using hc
      simp [GameManager.removeLastVillager, List.length_erase_of_mem hm]
  · simp [List.length_dropLast]

theorem trimRolesAux_length (n : Nat) :
    ∀ (fuel : Nat) (l : List Role), l.length ≤ n + fuel →
      (GameManager.trimRolesAux fuel l n).length = min l.length n := by
  intro fuel
  induction fuel with
  | zero =>
      intro l hl
      simp only [GameManager.trimRolesAux]
      omega
  | succ k ih =>
      intro l hl
      simp only [GameManager.trimRolesAux]
      split
      · next hgt =>
          rw [ih (GameManager.trimStep l) (by rw [trimStep_length]; omega),
            trimStep_length]
          omega
      · next hle => omega

theorem trimRoles_length (l : List Role) (n : Nat) :
    (GameManager.trimRoles l n).length = min l.length n :=
  trimRolesAux_length n l.length l (by omega)

/-!
Claim theorems.
-/

/-- Claim C1 (status: code_bug) — the claim says `processPhaseEnd`
evaluates the win condition on the post-resolution alive set, so that a
night resolution killing the last werewolf ends the game with
VILLAGE as the winning side.  The implementation passes the *stale*
fetched snapshot to `checkWinConditions` (the repository writes of
`processNightActions` do not mutate the in-memory `game` object), so on
`gStaleWin` — where the night poison kills the only werewolf — the call
returns `gameEnded = false` and advances to DISCUSSION with the game
still IN_PROGRESS, although the post-resolution state has zero alive
werewolves and evaluating the win condition on it declares VILLAGE the
winner. -/
theorem processPhaseEnd_stale_win_check :
    ((GameService.processPhaseEnd gStaleWin).toOption.map fun x =>
        (x.2.gameEnded, x.2.newPhase, x.1.status, x.1.phase)) =
      some (false, GamePhase.DISCUSSION, GameStatus.IN_PROGRESS,
        GamePhase.DISCUSSION) ∧
    ((GameService.processPhaseEnd gStaleWin).toOption.map fun x =>
        ((GameService.aliveWerewolves x.1).length,
         (GameService.checkWinConditions x.1).gameEnded,
         (GameService.checkWinConditions x.1).winningSide)) =
      some (0, true, some Side.VILLAGE) := by
  constructor
  · rfl
  · rfl

/-- Claim C2, counterexample — the claim says each save cancels exactly
one kill, so a player targeted by two kills and one save dies.  On
`gTwoKillsOneSave`, player `A` is targeted by two kill effects and one
save, yet survives the night resolution: one save cancels *all* kills on
that player. -/
theorem night_two_kills_one_save_survives :
    (GameService.killedIds gTwoKillsOneSave).count "A" = 2 ∧
    (GameService.savedIds gTwoKillsOneSave).count "A" = 1 ∧
    ((GameService.processNightActions gTwoKillsOneSave).1.players.find? fun p =>
        p.id == "A").map GamePlayer.isAlive = some true := by
  refine ⟨rfl, rfl, rfl⟩

/-- Claim C3, counterexample — the claim says that whenever the last two
alive players form a lover pair the evaluator returns the LOVERS side
with both as winners, even when one of them is a werewolf.  On
`gWolfLover` the two alive players `A` (werewolf) and `B` are the
declared lover pair, yet the evaluator returns the WEREWOLF side with
only `A` as winner: the aggressor check runs first. -/
theorem checkWin_wolf_lover_not_lovers :
    (GameService.alivePlayers gWolfLover).length = 2 ∧
    ((GameService.alivePlayers gWolfLover).map GamePlayer.id = ["A", "B"]) ∧
    gWolfLover.loverPairs.head? =
      some { id := "lp1", player1Id := "A", player2Id := "B" } ∧
    GameService.checkWinConditions gWolfLover =
      { gameEnded := true, winningSide := some Side.WEREWOLF,
        winners := some ["uA"] } ∧
    (GameService.checkWinConditions gWolfLover).winningSide ≠
      some Side.LOVERS := by
  refine ⟨rfl, rfl, rfl, rfl, by decide⟩

/-- Claim C3 (status: corrected) — with exactly two players alive the
evaluator never returns the LOVERS side: if no werewolf is among them
village wins (winners = the alive non-werewolves), otherwise the
werewolf side wins (winners = the alive werewolves); the lovers branch
is checked only after the aggressor/village checks and is unreachable
for two alive players. -/
theorem checkWinConditions_two_alive_never_lovers (g : Game)
    (h2 : (GameService.alivePlayers g).length = 2) :
    ((GameService.aliveWerewolves g).length = 0 →
      GameService.checkWinConditions g =
        { gameEnded := true, winningSide := some Side.VILLAGE,
          winners := some ((GameService.aliveVillagers g).map GamePlayer.userId) }) ∧
    ((GameService.aliveWerewolves g).length ≠ 0 →
      GameService.checkWinConditions g =
        { gameEnded := true, winningSide := some Side.WEREWOLF,
          winners := some ((GameService.aliveWerewolves g).map GamePlayer.userId) }) ∧
    (GameService.checkWinConditions g).winningSide ≠ some Side.LOVERS := by
  have hpart : (GameService.aliveWerewolves g).length + (GameService.aliveVillagers g).length = 2 := by
    have h := length_filter_partition (GameService.alivePlayers g)
      (fun p => p.role == some Role.WEREWOLF)
    rw [h2] at h
    exact h
  have hcase0 : (GameService.aliveWerewolves g).length = 0 →
      GameService.checkWinConditions g =
        { gameEnded := true, winningSide := some Side.VILLAGE,
          winners := some ((GameService.aliveVillagers g).map GamePlayer.userId) } := by
    intro hw
    simp [GameService.checkWinConditions, hw]
  have hcase1 : (GameService.aliveWerewolves g).length ≠ 0 →
      GameService.checkWinConditions g =
        { gameEnded := true, winningSide := some Side.WEREWOLF,
          winners := some ((GameService.aliveWerewolves g).map GamePlayer.userId) } := by
    intro hw
    have hge : (GameService.aliveVillagers g).length ≤ (GameService.aliveWerewolves g).length := by
      omega
    simp [GameService.checkWinConditions, hw, hge]
  refine ⟨hcase0, hcase1, ?_⟩
  rcases Nat.eq_zero_or_pos (GameService.aliveWerewolves g).length with hz | hp
  · rw [hcase0 hz]
    simp
  · rw [hcase1 (by omega)]
    simp

/-- Claim C3, witness — the amended statement applied to `gWolfLover`:
two alive players, a werewolf among them, and the evaluator returns the
WEREWOLF side. -/
theorem checkWinConditions_two_alive_never_lovers_witness :
    (GameService.alivePlayers gWolfLover).length = 2 ∧
    ((GameService.aliveWerewolves gWolfLover).length ≠ 0 →
      GameService.checkWinConditions gWolfLover =
        { gameEnded := true, winningSide := some Side.WEREWOLF,
          winners := some ((GameService.aliveWerewolves gWolfLover).map GamePlayer.userId) }) ∧
    (GameService.checkWinConditions gWolfLover).winningSide ≠ some Side.LOVERS := by
  refine ⟨by decide, ?_, ?_⟩
  · exact (checkWinConditions_two_alive_never_lovers gWolfLover (by decide)).2.1
  · exact (checkWinConditions_two_alive_never_lovers gWolfLover (by decide)).2.2

/-- Claim C4, counterexample — the claim says that when a unique strict
maximum exists, exactly that one player is marked dead.  On `gLoverVote`
player `A` uniquely tops the tally with 2 votes, but `A` is half of a
lover pair, so vote resolution marks both `A` and the partner `B` dead. -/
theorem processVotes_lover_partner_dies :
    GameService.voteCount gLoverVote = [("A", 2), ("C", 1)] ∧
    (((GameService.processVotes gLoverVote).1.players.filter fun p =>
        !p.isAlive).map GamePlayer.id) = ["A", "B"] := by
  refine ⟨rfl, rfl⟩

/-- Claim C5, counterexample — the claim says `assignRoles` always
returns exactly `playerCount` roles, trimming excess entries.
`GameService.assignRoles` (the current packages backend) has no trimming
step: with one player and a configured count of two werewolves it
returns two roles, not one. -/
theorem assignRoles_no_trim_counterexample :
    (GameService.assignRoles (fun _ => 0) 1 [(Role.WEREWOLF, 2)]).length = 2 ∧
    (GameService.assignRoles (fun _ => 0) 1 [(Role.WEREWOLF, 2)]).length ≠ 1 := by
  refine ⟨rfl, by decide⟩

theorem cons_set_perm (xs : List Role) :
    ∀ (m : Nat) (a b : Role), xs[m]? = some b →
      (b :: xs.set m a).Perm (a :: xs) := by
  induction xs with
  | nil => intro m a b h; simp at h
  | cons y ys ih =>
      intro m a b h
      cases m with
      | zero =>
          simp at h
          subst h
          simpa using List.Perm.swap a y ys
      | succ k =>
          simp at h
          have step1 : List.Perm (b :: y :: ys.set k a) (y :: b :: ys.set k a) :=
            List.Perm.swap y b _
          have step2 : List.Perm (y :: b :: ys.set k a) (y :: a :: ys) :=
            (ih k a b h).cons y
          have step3 : List.Perm (y :: a :: ys) (a :: y :: ys) :=
            List.Perm.swap a y ys
          simpa using (step1.trans step2).trans step3

theorem set_set_perm (l : List Role) :
    ∀ (i j : Nat) (a b : Role), l[i]? = some a → l[j]? = some b →
      ((l.set i b).set j a).Perm l := by
  induction l with
  | nil => intro i j a b h; simp at h
  | cons x xs ih =>
      intro i j a b h1 h2
      cases i with
      | zero =>
          simp at h1
          subst h1
          cases j with
          | zero =>
              simp at h2
              subst h2
              simp
          | succ k =>
              simp at h2
              simpa using cons_set_perm xs k x b h2
      | succ m =>
          simp at h1
          cases j with
          | zero =>
              simp at h2
              subst h2
              simpa using cons_set_perm xs m x a h1
          | succ k =>
              simp at h2
              simpa using (ih m k a b h1 h2).cons x

theorem listSwap_perm (l : List Role) (i j : Nat) : (listSwap l i j).Perm l := by
  unfold listSwap
  split
  · next a b h1 h2 => exact set_set_perm l i j a b h1 h2
  · exact List.Perm.refl l

theorem fisherYatesAux_perm (rand : Nat → Nat) :
    ∀ (i : Nat) (l : List Role), (fisherYatesAux rand i l).Perm l := by
  intro i
  induction i with
  | zero => intro l; exact List.Perm.refl l
  | succ k ih =>
      intro l
      exact (ih _).trans (listSwap_perm l (k + 1) (min (rand (k + 1)) (k + 1)))

/-- Claim C5 (status: corrected) — `GameManager.assignRoles` (the legacy
backend) behaves as the claim says: it always returns exactly
`playerCount` roles, a permutation of the flattened configuration padded
with `VILLAGER` when short and trimmed (last `VILLAGER` entries first,
then arbitrary tail entries) when long.  `GameService.assignRoles` (the
packages backend) pads but never trims: it returns
`max playerCount totalConfigured` roles, a permutation of the padded
flattened configuration, of which the players are positionally assigned
the first `playerCount`. -/
theorem assignRoles_length_and_perm (rand : Nat → Nat) (n : Nat)
    (cfg : List (Role × Nat)) :
    (GameManager.assignRoles rand n cfg).length = n ∧
    (GameManager.assignRoles rand n cfg).Perm
      (if (flattenRoles cfg).length > n then
         GameManager.trimRoles (flattenRoles cfg) n
       else
         flattenRoles cfg ++
           List.replicate (n - (flattenRoles cfg).length) Role.VILLAGER) ∧
    (GameService.assignRoles rand n cfg).length =
      max n (flattenRoles cfg).length ∧
    (GameService.assignRoles rand n cfg).Perm
      (flattenRoles cfg ++
        List.replicate (n - (flattenRoles cfg).length) Role.VILLAGER) := by
  have hperm1 : (GameManager.assignRoles rand n cfg).Perm
      (if (flattenRoles cfg).length > n then
         GameManager.trimRoles (flattenRoles cfg) n
       else
         flattenRoles cfg ++
           List.replicate (n - (flattenRoles cfg).length) Role.VILLAGER) := by
    unfold GameManager.assignRoles
    exact fisherYatesAux_perm rand _ _
  have hperm2 : (GameService.assignRoles rand n cfg).Perm
      (flattenRoles cfg ++
        List.replicate (n - (flattenRoles cfg).length) Role.VILLAGER) := by
    unfold GameService.assignRoles
    exact fisherYatesAux_perm rand _ _
  refine ⟨?_, hperm1, ?_, hperm2⟩
  · rw [hperm1.length_eq]
    split
    · next hgt => rw [trimRoles_length]; omega
    · next hle => simp; omega
  · rw [hperm2.length_eq]
    simp
    omega

/-!
Lemmas about `processNightActions`: the fold over the unprocessed night
actions and the fold over the kill list.
-/

theorem nightActionStep_db_misc (orig : Game)
    (acc : List String × List String × Game) (a : GameAction) :
    (GameService.nightActionStep orig acc a).2.2.players = acc.2.2.players ∧
    (GameService.nightActionStep orig acc a).2.2.loverPairs = acc.2.2.loverPairs ∧
    (GameService.nightActionStep orig acc a).2.2.dayNumber = acc.2.2.dayNumber ∧
    (GameService.nightActionStep orig acc a).2.2.phase = acc.2.2.phase ∧
    (GameService.nightActionStep orig acc a).2.2.actions =
      acc.2.2.actions.map
        (fun b => if b.id == a.id then { b with processed := true } else b) := by
  unfold GameService.nightActionStep GameService.witchFlagUpdate
  cases ha : a.action <;> cases ht : a.targetId <;> simp <;> (try split) <;> simp

theorem nightActionStep_killed_saved (orig : Game)
    (acc : List String × List String × Game) (a : GameAction) :
    (GameService.nightActionStep orig acc a).1 =
      acc.1 ++ (GameService.killSelect a).toList ∧
    (GameService.nightActionStep orig acc a).2.1 =
      acc.2.1 ++ (GameService.saveSelect a).toList := by
  unfold GameService.nightActionStep GameService.killSelect GameService.saveSelect
  cases ha : a.action <;> cases ht : a.targetId <;> simp

theorem killPlayerStep_db_misc (orig : Game) (st : Game × List GameEvent)
    (pid : String) :
    (GameService.killPlayerStep orig st pid).1.actions = st.1.actions ∧
    (GameService.killPlayerStep orig st pid).1.loverPairs = st.1.loverPairs ∧
    (GameService.killPlayerStep orig st pid).1.dayNumber = st.1.dayNumber ∧
    (GameService.killPlayerStep orig st pid).1.phase = st.1.phase ∧
    (GameService.killPlayerStep orig st pid).1.roleStates = st.1.roleStates := by
  unfold GameService.killPlayerStep
  dsimp only
  refine ⟨?_, ?_, ?_, ?_, ?_⟩ <;> (repeat' split) <;> simp

theorem nightFold_db_misc (orig : Game) (as : List GameAction) :
    ∀ (k s : List String) (db : Game),
      ((as.foldl (GameService.nightActionStep orig) (k, s, db)).2.2.players =
        db.players) ∧
      ((as.foldl (GameService.nightActionStep orig) (k, s, db)).2.2.loverPairs =
        db.loverPairs) ∧
      ((as.foldl (GameService.nightActionStep orig) (k, s, db)).2.2.dayNumber =
        db.dayNumber) ∧
      ((as.foldl (GameService.nightActionStep orig) (k, s, db)).2.2.phase =
        db.phase) := by
  induction as with
  | nil => intro k s db; exact ⟨rfl, rfl, rfl, rfl⟩
  | cons a rest ih =>
      intro k s db
      have hstep := nightActionStep_db_misc orig (k, s, db) a
      have hr := ih (GameService.nightActionStep orig (k, s, db) a).1
        (GameService.nightActionStep orig (k, s, db) a).2.1
        (GameService.nightActionStep orig (k, s, db) a).2.2
      simp only [List.foldl_cons]
      exact ⟨hr.1.trans hstep.1, hr.2.1.trans hstep.2.1,
        hr.2.2.1.trans hstep.2.2.1, hr.2.2.2.trans hstep.2.2.2.1⟩

theorem option_toList_append {α : Type} (o : Option α) (l : List α) :
    o.toList ++ l = match o with | some b => b :: l | none => l := by
  cases o <;> simp

theorem nightFold_killed_saved (orig : Game) (as : List GameAction) :
    ∀ (k s : List String) (db : Game),
      ((as.foldl (GameService.nightActionStep orig) (k, s, db)).1 =
        k ++ as.filterMap GameService.killSelect) ∧
      ((as.foldl (GameService.nightActionStep orig) (k, s, db)).2.1 =
        s ++ as.filterMap GameService.saveSelect) := by
  induction as with
  | nil => intro k s db; simp
  | cons a rest ih =>
      intro k s db
      have hstep := nightActionStep_killed_saved orig (k, s, db) a
      have hr := ih (GameService.nightActionStep orig (k, s, db) a).1
        (GameService.nightActionStep orig (k, s, db) a).2.1
        (GameService.nightActionStep orig (k, s, db) a).2.2
      simp only [List.foldl_cons]
      constructor
      · rw [hr.1, hstep.1, List.append_assoc, List.filterMap_cons,
          option_toList_append]
        cases GameService.killSelect a <;> rfl
      · rw [hr.2, hstep.2, List.append_assoc, List.filterMap_cons,
          option_toList_append]
        cases GameService.saveSelect a <;> rfl

theorem nightFold_processed (orig : Game) (as : List GameAction) :
    ∀ (k s : List String) (db : Game),
      (∀ b ∈ db.actions, GameService.nightActionFilter orig b = true →
        b.id ∈ as.map GameAction.id) →
      ∀ b ∈ ((as.foldl (GameService.nightActionStep orig) (k, s, db)).2.2).actions,
        GameService.nightActionFilter orig b = false := by
  induction as with
  | nil =>
      intro k s db hinv b hb
      cases hfil : GameService.nightActionFilter orig b with
      | false => rfl
      | true => simpa using hinv b hb hfil
  | cons a rest ih =>
      intro k s db hinv
      have htrans : ∀ b ∈ (GameService.nightActionStep orig (k, s, db) a).2.2.actions,
          GameService.nightActionFilter orig b = true →
            b.id ∈ rest.map GameAction.id := by
        intro b hb hfil
        rw [(nightActionStep_db_misc orig (k, s, db) a).2.2.2.2] at hb
        rcases List.mem_map.mp hb with ⟨b0, hb0, hmark⟩
        by_cases hid : (b0.id == a.id) = true
        · rw [if_pos hid] at hmark
          subst hmark
          simp [GameService.nightActionFilter] at hfil
        · rw [if_neg (by simpa using hid)] at hmark
          rw [← hmark] at hfil
          rw [← hmark]
          have hmem := hinv b0 hb0 hfil
          simp only [List.map_cons, List.mem_cons] at hmem
          rcases hmem with heq | hmem2
          · exact absurd (by simp [heq]) hid
          · simpa using hmem2
      simp only [List.foldl_cons]
      exact ih _ _ _ htrans

theorem killFold_db_misc (orig : Game) (pids : List String) :
    ∀ (st : Game × List GameEvent),
      ((pids.foldl (GameService.killPlayerStep orig) st).1.actions =
        st.1.actions) ∧
      ((pids.foldl (GameService.killPlayerStep orig) st).1.loverPairs =
        st.1.loverPairs) ∧
      ((pids.foldl (GameService.killPlayerStep orig) st).1.dayNumber =
        st.1.dayNumber) ∧
      ((pids.foldl (GameService.killPlayerStep orig) st).1.phase =
        st.1.phase) := by
  induction pids with
  | nil => intro st; exact ⟨rfl, rfl, rfl, rfl⟩
  | cons pid rest ih =>
      intro st
      have hstep := killPlayerStep_db_misc orig st pid
      have hr := ih (GameService.killPlayerStep orig st pid)
      simp only [List.foldl_cons]
      exact ⟨hr.1.trans hstep.1, hr.2.1.trans hstep.2.1,
        hr.2.2.1.trans hstep.2.2.1, hr.2.2.2.trans hstep.2.2.2.1⟩

theorem processNightActions_noop (g : Game)
    (h : g.actions.filter (GameService.nightActionFilter g) = []) :
    GameService.processNightActions g = (g, []) := by
  unfold GameService.processNightActions
  rw [h]
  rfl

theorem processNightActions_filter_false (g : Game) :
    ∀ b ∈ (GameService.processNightActions g).1.actions,
      GameService.nightActionFilter g b = false := by
  intro b hb
  unfold GameService.processNightActions at hb
  dsimp only at hb
  rw [(killFold_db_misc g _ _).1] at hb
  exact nightFold_processed g (g.actions.filter (GameService.nightActionFilter g))
    [] [] g (fun b2 hb2 hf => List.mem_map_of_mem _ (List.mem_filter.mpr ⟨hb2, hf⟩))
    b hb

theorem processNightActions_db_misc (g : Game) :
    (GameService.processNightActions g).1.dayNumber = g.dayNumber ∧
    (GameService.processNightActions g).1.phase = g.phase ∧
    (GameService.processNightActions g).1.loverPairs = g.loverPairs := by
  unfold GameService.processNightActions
  dsimp only
  refine ⟨?_, ?_, ?_⟩
  · rw [(killFold_db_misc g _ _).2.2.1,
      (nightFold_db_misc g (g.actions.filter (GameService.nightActionFilter g))
        [] [] g).2.2.1]
  · rw [(killFold_db_misc g _ _).2.2.2,
      (nightFold_db_misc g (g.actions.filter (GameService.nightActionFilter g))
        [] [] g).2.2.2]
  · rw [(killFold_db_misc g _ _).2.1,
      (nightFold_db_misc g (g.actions.filter (GameService.nightActionFilter g))
        [] [] g).2.1]

/-- Claim C6 (status: confirmed) — night resolution consumes only
unprocessed actions and marks every consumed action processed: after one
call every current-night action in the store is processed; with zero
unprocessed night actions the call changes nothing and returns no
events; and a second call on the result of a first call is a no-op that
kills nobody (it returns the state unchanged with an empty event
list). -/
theorem processNightActions_idempotent (g : Game) :
    (∀ a ∈ (GameService.processNightActions g).1.actions,
        a.dayNumber = g.dayNumber → a.phase = GamePhase.NIGHT →
          a.processed = true) ∧
    (g.actions.filter (GameService.nightActionFilter g) = [] →
      GameService.processNightActions g = (g, [])) ∧
    GameService.processNightActions (GameService.processNightActions g).1 =
      ((GameService.processNightActions g).1, []) := by
  refine ⟨?_, processNightActions_noop g, ?_⟩
  · intro a ha hday hphase
    have hf := processNightActions_filter_false g a ha
    simp [GameService.nightActionFilter, hday, hphase] at hf
    exact hf
  · apply processNightActions_noop
    apply List.filter_eq_nil_iff.mpr
    intro b hb
    have hf := processNightActions_filter_false g b hb
    have hday := (processNightActions_db_misc g).1
    simp only [GameService.nightActionFilter, hday]
    simp only [GameService.nightActionFilter] at hf
    simp [hf]

/-- Claim C6, witness — a game whose only night action is already
processed: resolution is a no-op with no events, and so is resolving
twice. -/
theorem processNightActions_idempotent_witness :
    (gNightDone.actions.filter (GameService.nightActionFilter gNightDone) = [] →
      GameService.processNightActions gNightDone = (gNightDone, [])) ∧
    (gNightDone.actions.filter (GameService.nightActionFilter gNightDone) = []) ∧
    GameService.processNightActions
        (GameService.processNightActions gNightDone).1 =
      ((GameService.processNightActions gNightDone).1, []) :=
  ⟨(processNightActions_idempotent gNightDone).2.1, rfl,
   (processNightActions_idempotent gNightDone).2.2⟩

theorem contains_filter (l : List String) (q : String → Bool) (x : String) :
    ((l.filter q).contains x) = (l.contains x && q x) := by
  induction l with
  | nil => simp
  | cons a t ih =>
      by_cases hxa : x = a
      · subst hxa
        by_cases hq : q x = true <;> simp [List.filter_cons, hq, ih]
      · by_cases hq : q a = true <;>
          simp [List.filter_cons, hq, List.contains_cons, ih, hxa]

theorem killFold_players_noLovers (orig : Game) (pids : List String) :
    ∀ (st : Game × List GameEvent), st.1.loverPairs = [] →
      (pids.foldl (GameService.killPlayerStep orig) st).1.players =
        st.1.players.map fun p =>
          if pids.contains p.id then { p with isAlive := false } else p := by
  induction pids with
  | nil =>
      intro st hlp
      simp
  | cons pid rest ih =>
      intro st hlp
      have hstep_players :
          (GameService.killPlayerStep orig st pid).1.players =
            killById st.1.players pid := by
        unfold GameService.killPlayerStep
        dsimp only
        cases horig : orig.players.find? (fun p => p.id == pid) <;>
          simp [findLoverPair, hlp]
      have hstep_lp : (GameService.killPlayerStep orig st pid).1.loverPairs = [] :=
        ((killPlayerStep_db_misc orig st pid).2.1).trans hlp
      simp only [List.foldl_cons]
      rw [ih _ hstep_lp, hstep_players]
      unfold killById
      rw [List.map_map]
      have hfun : ∀ p : GamePlayer,
          ((fun p => if rest.contains p.id then { p with isAlive := false } else p) ∘
            (fun p => if p.id == pid then { p with isAlive := false } else p)) p =
          (fun p => if (pid :: rest).contains p.id then { p with isAlive := false }
            else p) p := by
        intro p
        by_cases hp : p.id = pid
        · simp [Function.comp, hp, List.contains_cons]
        · simp [Function.comp, List.contains_cons, hp]
      exact List.map_congr_left fun p _ => hfun p

/-- Claim C2 (status: corrected) — in a game without lover pairs, night
resolution marks a player dead exactly when some unprocessed night kill
action targets them and no unprocessed night save action targets them:
one save cancels all kills on its target, so a player with two kills and
one save survives. -/
theorem processNightActions_save_cancels_all_kills (g : Game)
    (hlp : g.loverPairs = []) :
    (GameService.processNightActions g).1.players =
      g.players.map fun p =>
        if (GameService.killedIds g).contains p.id &&
           !((GameService.savedIds g).contains p.id) then
          { p with isAlive := false }
        else p := by
  unfold GameService.processNightActions
  dsimp only
  have hks := nightFold_killed_saved g
    (g.actions.filter (GameService.nightActionFilter g)) [] [] g
  have hmisc := nightFold_db_misc g
    (g.actions.filter (GameService.nightActionFilter g)) [] [] g
  rw [killFold_players_noLovers g _ _ (hmisc.2.1.trans hlp), hmisc.1]
  apply List.map_congr_left
  intro p _
  simp only [hks.1, hks.2, List.nil_append, contains_filter]
  rfl

/-- Claim C2, witness — the amended statement applied to
`gTwoKillsOneSave`, where `A` is targeted by two kills and one save. -/
theorem processNightActions_save_cancels_all_kills_witness :
    gTwoKillsOneSave.loverPairs = [] ∧
    (GameService.processNightActions gTwoKillsOneSave).1.players =
      gTwoKillsOneSave.players.map fun p =>
        if (GameService.killedIds gTwoKillsOneSave).contains p.id &&
           !((GameService.savedIds gTwoKillsOneSave).contains p.id) then
          { p with isAlive := false }
        else p :=
  ⟨rfl, processNightActions_save_cancels_all_kills gTwoKillsOneSave rfl⟩

/-!
Lemmas about the vote tally (`voteCount`, a JS `Map` in insertion order)
and the maximum-search loop of `processVotes`.
-/

theorem bump_lookup_self (t : String) :
    ∀ (m : List (String × Nat)),
      lookupCount (GameService.bump m t) t =
        some ((lookupCount m t).getD 0 + 1) := by
  intro m
  induction m with
  | nil => simp [GameService.bump, lookupCount]
  | cons e rest ih =>
      by_cases h : e.1 = t
      · simp [GameService.bump, lookupCount, h]
      · have hbeq : (e.1 == t) = false := by simpa using h
        simp [GameService.bump, lookupCount, hbeq] at ih ⊢
        exact ih

theorem bump_lookup_other (t s : String) (hst : s ≠ t) :
    ∀ (m : List (String × Nat)),
      lookupCount (GameService.bump m t) s = lookupCount m s := by
  intro m
  induction m with
  | nil =>
      have hbeq : (t == s) = false := by simpa using fun h => hst h.symm
      simp [GameService.bump, lookupCount, hbeq]
  | cons e rest ih =>
      by_cases h : e.1 = t
      · subst h
        have hbeq : (e.1 == s) = false := by simpa using fun h => hst h.symm
        simp [GameService.bump, lookupCount, hbeq]
      · have hbeq : (e.1 == t) = false := by simpa using h
        by_cases h2 : e.1 = s
        · have hbeq2 : (e.1 == s) = true := by simpa using h2
          simp [GameService.bump, lookupCount, hbeq, hbeq2]
        · have hbeq2 : (e.1 == s) = false := by simpa using h2
          simp [GameService.bump, lookupCount, hbeq, hbeq2] at ih ⊢
          exact ih

theorem bump_keys_subset (t : String) :
    ∀ (m : List (String × Nat)) (x : String),
      x ∈ (GameService.bump m t).map Prod.fst →
        x = t ∨ x ∈ m.map Prod.fst := by
  intro m
  induction m with
  | nil => intro x hx; simpa [GameService.bump] using hx
  | cons e rest ih =>
      intro x hx
      by_cases h : e.1 = t
      · have hbeq : (e.1 == t) = true := by simpa using h
        simp only [GameService.bump, hbeq, if_true] at hx
        simp only [List.map_cons, List.mem_cons] at hx ⊢
        tauto
      · have hbeq : (e.1 == t) = false := by simpa using h
        simp only [GameService.bump, hbeq, Bool.false_eq_true, if_false] at hx
        simp only [List.map_cons, List.mem_cons] at hx ⊢
        rcases hx with hx | hx
        · tauto
        · rcases ih x hx with h2 | h2 <;> tauto

theorem bump_keys_nodup (t : String) :
    ∀ (m : List (String × Nat)), (m.map Prod.fst).Nodup →
      ((GameService.bump m t).map Prod.fst).Nodup := by
  intro m
  induction m with
  | nil => intro _; simp [GameService.bump]
  | cons e rest ih =>
      intro hnd
      simp only [List.map_cons, List.nodup_cons] at hnd
      by_cases h : e.1 = t
      · have hbeq : (e.1 == t) = true := by simpa using h
        simp only [GameService.bump, hbeq, if_true]
        simp only [List.map_cons, List.nodup_cons]
        exact hnd
      · have hbeq : (e.1 == t) = false := by simpa using h
        simp only [GameService.bump, hbeq, Bool.false_eq_true, if_false]
        simp only [List.map_cons, List.nodup_cons]
        refine ⟨?_, ih hnd.2⟩
        intro hmem
        rcases bump_keys_subset t rest e.1 hmem with he | he
        · exact h he
        · exact hnd.1 he

theorem foldl_bump_lookup (t : String) :
    ∀ (ts : List String) (m : List (String × Nat)),
      lookupCount (ts.foldl GameService.bump m) t =
        if ts.count t = 0 then lookupCount m t
        else some ((lookupCount m t).getD 0 + ts.count t) := by
  intro ts
  induction ts with
  | nil => intro m; simp
  | cons a rest ih =>
      intro m
      simp only [List.foldl_cons]
      rw [ih (GameService.bump m a)]
      by_cases hat : a = t
      · subst hat
        rw [bump_lookup_self a m]
        have hc : (a :: rest).count a = rest.count a + 1 := by
          simp [List.count_cons]
        rw [hc]
        by_cases hz : rest.count a = 0
        · simp [hz]
        · simp [hz]
          omega
      · have hc : (a :: rest).count t = rest.count t := by
          simp [List.count_cons, hat]
        rw [hc, bump_lookup_other a t (fun h => hat h.symm) m]

theorem foldl_bump_nodup :
    ∀ (ts : List String) (m : List (String × Nat)),
      (m.map Prod.fst).Nodup → ((ts.foldl GameService.bump m).map Prod.fst).Nodup := by
  intro ts
  induction ts with
  | nil => intro m h; simpa using h
  | cons a rest ih =>
      intro m h
      simp only [List.foldl_cons]
      exact ih (GameService.bump m a) (bump_keys_nodup a m h)

theorem lookup_of_mem_nodup :
    ∀ (m : List (String × Nat)), (m.map Prod.fst).Nodup →
      ∀ (t : String) (c : Nat), (t, c) ∈ m → lookupCount m t = some c := by
  intro m
  induction m with
  | nil => intro _ t c h; simp at h
  | cons e rest ih =>
      intro hnd t c hm
      simp only [List.map_cons, List.nodup_cons] at hnd
      rcases List.mem_cons.mp hm with he | hm2
      · subst he
        simp [lookupCount]
      · by_cases ht : e.1 = t
        · exfalso
          apply hnd.1
          rw [ht]
          exact List.mem_map.mpr ⟨(t, c), hm2, rfl⟩
        · have hbeq : (e.1 == t) = false := by simpa using ht
          simp only [lookupCount, List.find?_cons, hbeq]
          exact ih hnd.2 t c hm2

theorem mem_of_lookup (m : List (String × Nat)) (t : String) (c : Nat)
    (h : lookupCount m t = some c) : (t, c) ∈ m := by
  unfold lookupCount at h
  rcases hf : m.find? (fun e => e.1 == t) with _ | e
  · rw [hf] at h
    simp at h
  · rw [hf] at h
    simp at h
    have hmem := List.mem_of_find?_eq_some hf
    have hpred := List.find?_some hf
    have ht : e.1 = t := by simpa using hpred
    have he : e = (t, c) := by
      obtain ⟨e1, e2⟩ := e
      simp at ht h
      simp [ht, h]
    rw [← he]
    exact hmem

theorem maxStep_fst (acc : Nat × List String) (e : String × Nat) :
    (GameService.maxStep acc e).1 = max acc.1 e.2 := by
  unfold GameService.maxStep
  repeat' split
  all_goals simp_all
  all_goals omega

theorem foldl_max_ge_init :
    ∀ (m : List (String × Nat)) (i : Nat),
      i ≤ m.foldl (fun acc e => max acc e.2) i := by
  intro m
  induction m with
  | nil => intro i; simp
  | cons e rest ih =>
      intro i
      simp only [List.foldl_cons]
      exact le_trans (Nat.le_max_left i e.2) (ih (max i e.2))

theorem foldl_max_ge_mem :
    ∀ (m : List (String × Nat)) (i : Nat) (e : String × Nat), e ∈ m →
      e.2 ≤ m.foldl (fun acc e => max acc e.2) i := by
  intro m
  induction m with
  | nil => intro i e h; simp at h
  | cons a rest ih =>
      intro i e h
      simp only [List.foldl_cons]
      rcases List.mem_cons.mp h with he | hmem
      · subst he
        exact le_trans (Nat.le_max_right i e.2) (foldl_max_ge_init rest (max i e.2))
      · exact ih (max i a.2) e hmem

theorem foldl_max_le :
    ∀ (m : List (String × Nat)) (i B : Nat), i ≤ B → (∀ e ∈ m, e.2 ≤ B) →
      m.foldl (fun acc e => max acc e.2) i ≤ B := by
  intro m
  induction m with
  | nil => intro i B hi _; simpa using hi
  | cons a rest ih =>
      intro i B hi hall
      simp only [List.foldl_cons]
      refine ih (max i a.2) B ?_ fun e he => hall e (List.mem_cons_of_mem a he)
      exact max_le hi (hall a (List.mem_cons_self a rest))

theorem maxCount_append (m : List (String × Nat)) (e : String × Nat) :
    maxCount (m ++ [e]) = max (maxCount m) e.2 := by
  unfold maxCount
  rw [List.foldl_append]
  simp

theorem findEliminated_spec :
    ∀ (m : List (String × Nat)),
      (GameService.findEliminated m).1 = maxCount m ∧
      (GameService.findEliminated m).2 =
        (m.filter fun e => e.2 == maxCount m).map Prod.fst := by
  intro m
  induction m using List.reverseRecOn with
  | nil => simp [GameService.findEliminated, maxCount]
  | append_singleton l e ih =>
      have hfold : GameService.findEliminated (l ++ [e]) =
          GameService.maxStep (GameService.findEliminated l) e := by
        unfold GameService.findEliminated
        rw [List.foldl_append]
        rfl
      have hm := maxCount_append l e
      have hbound : ∀ x ∈ l, x.2 ≤ maxCount l := fun x hx =>
        foldl_max_ge_mem l 0 x hx
      constructor
      · rw [hfold, maxStep_fst, ih.1, hm]
      · rw [hfold, hm]
        unfold GameService.maxStep
        rw [ih.1]
        by_cases hgt : e.2 > maxCount l
        · rw [if_pos (by simpa using hgt)]
          have hmax : max (maxCount l) e.2 = e.2 := by omega
          rw [hmax]
          have hfl : l.filter (fun x => x.2 == e.2) = [] := by
            apply List.filter_eq_nil_iff.mpr
            intro x hx
            have := hbound x hx
            simp only [beq_iff_eq]
            omega
          rw [List.filter_append, hfl]
          simp
        · rw [if_neg (by simpa using hgt)]
          by_cases heq : e.2 = maxCount l
          · rw [if_pos (by simpa using heq)]
            have hmax : max (maxCount l) e.2 = maxCount l := by omega
            rw [hmax, List.filter_append, ih.2]
            have hfe : [e].filter (fun x => x.2 == maxCount l) = [e] := by
              simp [heq]
            rw [hfe]
            simp
          · rw [if_neg (by simpa using heq)]
            have hmax : max (maxCount l) e.2 = maxCount l := by omega
            rw [hmax, List.filter_append, ih.2]
            have hfe : [e].filter (fun x => x.2 == maxCount l) = [] := by
              simp [heq]
            rw [hfe]
            simp

theorem eq_singleton_of_all_eq {α : Type} (l : List α) (x : α) (hne : l ≠ [])
    (hall : ∀ y ∈ l, y = x) (hnd : l.Nodup) : l = [x] := by
  cases l with
  | nil => exact absurd rfl hne
  | cons y t =>
      have hy : y = x := hall y (List.mem_cons_self y t)
      subst hy
      have ht : t = [] := by
        apply List.eq_nil_iff_forall_not_mem.mpr
        intro z hz
        have hzx : z = y := hall z (List.mem_cons_of_mem y hz)
        subst hzx
        exact (List.nodup_cons.mp hnd).1 hz
      rw [ht]

theorem voteCount_lookup (g : Game) (t : String) :
    lookupCount (GameService.voteCount g) t =
      if targetCount g t = 0 then none else some (targetCount g t) := by
  unfold GameService.voteCount targetCount
  rw [foldl_bump_lookup]
  by_cases h : ((GameService.currentVotes g).filterMap Vote.targetId).count t = 0 <;>
    simp [h, lookupCount]

theorem voteCount_nodup (g : Game) :
    ((GameService.voteCount g).map Prod.fst).Nodup := by
  unfold GameService.voteCount
  exact foldl_bump_nodup _ [] (by simp)

theorem voteCount_entry (g : Game) :
    ∀ e ∈ GameService.voteCount g, e.2 = targetCount g e.1 ∧ 0 < e.2 := by
  intro e he
  have hl := lookup_of_mem_nodup (GameService.voteCount g) (voteCount_nodup g)
    e.1 e.2 (by simpa using he)
  rw [voteCount_lookup g e.1] at hl
  by_cases h0 : targetCount g e.1 = 0
  · rw [if_pos h0] at hl
    simp at hl
  · rw [if_neg h0] at hl
    simp at hl
    omega

theorem voteCount_mem_of_pos (g : Game) (t : String)
    (h : 0 < targetCount g t) :
    (t, targetCount g t) ∈ GameService.voteCount g := by
  apply mem_of_lookup
  rw [voteCount_lookup g t, if_neg (by omega)]

theorem findEliminated_unique_max (g : Game) (p : String)
    (hpos : 0 < targetCount g p)
    (hmax : ∀ q, q ≠ p → targetCount g q < targetCount g p) :
    GameService.findEliminated (GameService.voteCount g) =
      (targetCount g p, [p]) := by
  have hnd := voteCount_nodup g
  have hpmem := voteCount_mem_of_pos g p hpos
  have hle : ∀ e ∈ GameService.voteCount g, e.2 ≤ targetCount g p := by
    intro e he
    rw [(voteCount_entry g e he).1]
    by_cases hep : e.1 = p
    · rw [hep]
    · exact le_of_lt (hmax e.1 hep)
  have hM : maxCount (GameService.voteCount g) = targetCount g p := by
    refine le_antisymm (foldl_max_le _ 0 _ (Nat.zero_le _) hle) ?_
    exact foldl_max_ge_mem _ 0 (p, targetCount g p) hpmem
  have hspec := findEliminated_spec (GameService.voteCount g)
  have hfilter_all : ∀ y ∈ ((GameService.voteCount g).filter fun e =>
      e.2 == maxCount (GameService.voteCount g)).map Prod.fst, y = p := by
    intro y hy
    rcases List.mem_map.mp hy with ⟨e, hef, hfst⟩
    have hem := List.mem_of_mem_filter hef
    have hpred : e.2 = maxCount (GameService.voteCount g) := by
      simpa using List.of_mem_filter hef
    by_contra hyp
    have hlt : targetCount g e.1 < targetCount g p := by
      apply hmax
      rw [hfst]
      exact hyp
    rw [← (voteCount_entry g e hem).1, hpred, hM] at hlt
    omega
  have hfmem : (p, targetCount g p) ∈ (GameService.voteCount g).filter fun e =>
      e.2 == maxCount (GameService.voteCount g) := by
    apply List.mem_filter.mpr
    exact ⟨hpmem, by simp [hM]⟩
  have hfnodup : (((GameService.voteCount g).filter fun e =>
      e.2 == maxCount (GameService.voteCount g)).map Prod.fst).Nodup :=
    ((List.filter_sublist _).map Prod.fst).nodup hnd
  have hsingle : ((GameService.voteCount g).filter fun e =>
      e.2 == maxCount (GameService.voteCount g)).map Prod.fst = [p] := by
    refine eq_singleton_of_all_eq _ p ?_ hfilter_all hfnodup
    intro hnil
    have := List.mem_map_of_mem Prod.fst hfmem
    rw [hnil] at this
    simp at this
  rw [Prod.ext_iff]
  exact ⟨by rw [hspec.1, hM], by rw [hspec.2, hsingle]⟩

theorem findEliminated_unique_max_inv (g : Game)
    (h1 : (GameService.findEliminated (GameService.voteCount g)).2.length = 1)
    (h2 : 0 < (GameService.findEliminated (GameService.voteCount g)).1) :
    ∃ p, 0 < targetCount g p ∧
      ∀ q, q ≠ p → targetCount g q < targetCount g p := by
  have hspec := findEliminated_spec (GameService.voteCount g)
  rw [hspec.2] at h1
  rw [hspec.1] at h2
  rcases hF : (GameService.voteCount g).filter (fun e =>
      e.2 == maxCount (GameService.voteCount g)) with _ | ⟨e, rest⟩
  · rw [hF] at h1
    simp at h1
  · rw [hF] at h1
    simp at h1
    subst h1
    have hmem : e ∈ (GameService.voteCount g).filter (fun x =>
        x.2 == maxCount (GameService.voteCount g)) := by
      rw [hF]
      exact List.mem_singleton.mpr rfl
    have hem := List.mem_of_mem_filter hmem
    have he2 : e.2 = maxCount (GameService.voteCount g) := by
      simpa using List.of_mem_filter hmem
    have hcnt : targetCount g e.1 = maxCount (GameService.voteCount g) := by
      rw [← (voteCount_entry g e hem).1, he2]
    refine ⟨e.1, by omega, ?_⟩
    intro q hq
    by_cases hq0 : targetCount g q = 0
    · omega
    · have hqmem := voteCount_mem_of_pos g q (by omega)
      have hqle : targetCount g q ≤ maxCount (GameService.voteCount g) := by
        have := foldl_max_ge_mem (GameService.voteCount g) 0
          (q, targetCount g q) hqmem
        exact this
      rcases Nat.lt_or_ge (targetCount g q)
          (maxCount (GameService.voteCount g)) with hlt | hge
      · omega
      · exfalso
        have hqM : targetCount g q = maxCount (GameService.voteCount g) := by
          omega
        have hqf : (q, targetCount g q) ∈
            (GameService.voteCount g).filter (fun x =>
              x.2 == maxCount (GameService.voteCount g)) := by
          apply List.mem_filter.mpr
          exact ⟨hqmem, by simp [hqM]⟩
        rw [hF] at hqf
        have : (q, targetCount g q) = e := List.mem_singleton.mp hqf
        apply hq
        rw [← this]

/-- Claim C4 (status: corrected) — vote resolution tallies only the
non-null targets of current-phase/day votes.  If some player `p` has a
strictly larger count than every other target and that count is
positive, then (in a game without lover pairs) exactly the player row
with id `p` is marked dead and the first returned event is the PUBLIC
`PLAYER_ELIMINATED` event carrying `p`'s vote count; when no unique
positive strict maximum exists (a tie among the top-voted targets, or
all votes skips), the state is unchanged and no events are returned. -/
theorem processVotes_unique_max_resolution (g : Game) :
    (∀ (p : String) (player : GamePlayer),
      g.loverPairs = [] →
      g.players.find? (fun q => q.id == p) = some player →
      0 < targetCount g p →
      (∀ q, q ≠ p → targetCount g q < targetCount g p) →
      (GameService.processVotes g).1.players = killById g.players p ∧
      (GameService.processVotes g).2.head? = some
        { type := EventType.PLAYER_ELIMINATED,
          visibility := EventVisibility.PUBLIC, visibleTo := [],
          data := EventData.playerEliminated p player.nickname (targetCount g p),
          dayNumber := g.dayNumber, phase := g.phase }) ∧
    ((¬ ∃ p, 0 < targetCount g p ∧
        ∀ q, q ≠ p → targetCount g q < targetCount g p) →
      GameService.processVotes g = (g, [])) := by
  constructor
  · intro p player hlp hfound hpos hmax
    unfold GameService.processVotes
    dsimp only
    rw [findEliminated_unique_max g p hpos hmax]
    dsimp only
    rw [if_pos (by simp [hpos])]
    simp only [List.headD_cons]
    rw [hfound]
    rw [show findLoverPair { g with players := killById g.players p } p = none by
      simp [findLoverPair, hlp]]
    constructor
    · rfl
    · rfl
  · intro hno
    unfold GameService.processVotes
    dsimp only
    rw [if_neg ?_]
    · intro hcond
      simp only [Bool.and_eq_true, beq_iff_eq, decide_eq_true_eq] at hcond
      exact hno (findEliminated_unique_max_inv g hcond.1 hcond.2)

/-- Claim C4, witness — the amended statement applied to `gPlainVote`
(unique strict maximum, no lovers) for the elimination half, and to
`gLoverVote` without the tie for nothing: on `gPlainVote`, `A` is
eliminated with 2 votes and nobody else dies. -/
theorem processVotes_unique_max_resolution_witness :
    gPlainVote.loverPairs = [] ∧
    0 < targetCount gPlainVote "A" ∧
    (GameService.processVotes gPlainVote).1.players =
      killById gPlainVote.players "A" ∧
    (GameService.processVotes gPlainVote).2.head? = some
      { type := EventType.PLAYER_ELIMINATED,
        visibility := EventVisibility.PUBLIC, visibleTo := [],
        data := EventData.playerEliminated "A" "ann" (targetCount gPlainVote "A"),
        dayNumber := gPlainVote.dayNumber, phase := gPlainVote.phase } := by
  have h := (processVotes_unique_max_resolution gPlainVote).1 "A"
    (mkPlayer "A" "uA" 1 "ann" (some Role.VILLAGER) true) rfl rfl
    (by decide)
    (by
      intro q hq
      by_cases hb : q = "B"
      · subst hb
        decide
      · have hq1 : ("A" == q) = false := by simpa using fun h => hq h.symm
        have hq2 : ("B" == q) = false := by simpa using fun h => hb h.symm
        have h0 : targetCount gPlainVote q = 0 := by
          show (["A", "A", "B"].count q) = 0
          simp [List.count_cons, hq1, hq2]
        rw [h0]
        decide)
  exact ⟨rfl, by decide, h.1, h.2⟩

/-!
Lemmas about `castVote`.
-/

theorem find?_eq_none_of_filter_eq_nil {α : Type} (l : List α) (p : α → Bool)
    (h : l.filter p = []) : l.find? p = none := by
  rw [List.find?_eq_none]
  intro x hx hpx
  have hmem : x ∈ l.filter p := List.mem_filter.mpr ⟨hx, hpx⟩
  simp [h] at hmem

theorem find?_append_of_none {α : Type} (l1 l2 : List α) (p : α → Bool)
    (h : l1.find? p = none) : (l1 ++ l2).find? p = l2.find? p := by
  induction l1 with
  | nil => simp
  | cons a t ih =>
      cases hpa : p a
      · simp only [List.find?_cons, hpa] at h
        simp only [List.cons_append, List.find?_cons, hpa]
        exact ih h
      · simp only [List.find?_cons, hpa] at h
        cases h

theorem castVote_creates (g : Game) (u : String) (t : Option String)
    (fid : String) (voter : GamePlayer)
    (hphase : g.phase = GamePhase.VOTING)
    (hv : g.players.find? (fun p => p.userId == u) = some voter)
    (hva : voter.isAlive = true)
    (ht : GameService.voteTargetOk g t = true)
    (hfind : g.votes.find? (fun v => v.voterId == voter.id &&
      v.dayNumber == g.dayNumber && v.phase == g.phase) = none) :
    ∃ allv, GameService.castVote g u t fid =
      ({ g with votes := g.votes ++
          [{ id := fid, voterId := voter.id, targetId := t,
             phase := g.phase, dayNumber := g.dayNumber, round := 1 }] },
        Except.ok
          ({ id := fid, voterId := voter.id, targetId := t,
             phase := g.phase, dayNumber := g.dayNumber, round := 1 }, allv)) := by
  unfold GameService.castVote
  rw [hv]
  dsimp only
  rw [hfind]
  simp only [hphase, hva, ht, beq_self_eq_true, Bool.not_true,
    Bool.false_eq_true, if_false, Bool.not_false, if_true]
  exact ⟨_, rfl⟩

theorem castVote_updates (g : Game) (u : String) (t : Option String)
    (fid : String) (voter : GamePlayer) (ev : Vote)
    (hphase : g.phase = GamePhase.VOTING)
    (hv : g.players.find? (fun p => p.userId == u) = some voter)
    (hva : voter.isAlive = true)
    (ht : GameService.voteTargetOk g t = true)
    (hfind : g.votes.find? (fun v => v.voterId == voter.id &&
      v.dayNumber == g.dayNumber && v.phase == g.phase) = some ev) :
    ∃ allv, GameService.castVote g u t fid =
      ({ g with votes := g.votes.map fun v =>
           if v.id == ev.id then { v with targetId := t } else v },
        Except.ok ({ ev with targetId := t }, allv)) := by
  unfold GameService.castVote
  rw [hv]
  dsimp only
  rw [hfind]
  simp only [hphase, hva, ht, beq_self_eq_true, Bool.not_true,
    Bool.false_eq_true, if_false, Bool.not_false, if_true]
  exact ⟨_, rfl⟩

/-- Claim C7 (status: confirmed) — a voter who already has a vote for the
current (voter, phase, day) key gets that vote's target updated in place
rather than a second row: casting twice leaves exactly one vote for the
key, carrying the latest target, and the store grows by one row total
(only the first cast inserts). -/
theorem castVote_replaces_existing (g : Game) (u : String) (voter : GamePlayer)
    (t1 t2 : Option String) (id1 id2 : String)
    (hphase : g.phase = GamePhase.VOTING)
    (hv : g.players.find? (fun p => p.userId == u) = some voter)
    (hva : voter.isAlive = true)
    (ht1 : GameService.voteTargetOk g t1 = true)
    (ht2 : GameService.voteTargetOk g t2 = true)
    (hnone : g.votes.filter (fun v => v.voterId == voter.id &&
      v.dayNumber == g.dayNumber && v.phase == g.phase) = [])
    (hid : ∀ v ∈ g.votes, v.id ≠ id1) :
    (∃ res1, (GameService.castVote g u t1 id1).2 = Except.ok res1) ∧
    (∃ res2, (GameService.castVote (GameService.castVote g u t1 id1).1 u t2
        id2).2 = Except.ok res2 ∧ res2.1.targetId = t2) ∧
    (GameService.castVote g u t1 id1).1.votes.length = g.votes.length + 1 ∧
    (GameService.castVote (GameService.castVote g u t1 id1).1 u t2
        id2).1.votes.length = g.votes.length + 1 ∧
    (GameService.castVote (GameService.castVote g u t1 id1).1 u t2
        id2).1.votes.filter (fun v => v.voterId == voter.id &&
          v.dayNumber == g.dayNumber && v.phase == g.phase) =
      [{ id := id1, voterId := voter.id, targetId := t2,
         phase := g.phase, dayNumber := g.dayNumber, round := 1 }] := by
  have hfindnone := find?_eq_none_of_filter_eq_nil _ _ hnone
  rcases castVote_creates g u t1 id1 voter hphase hv hva ht1 hfindnone with
    ⟨allv1, h1⟩
  have hg1eq : (GameService.castVote g u t1 id1).1 =
      { g with votes := g.votes ++
        [{ id := id1, voterId := voter.id, targetId := t1,
           phase := g.phase, dayNumber := g.dayNumber, round := 1 }] } := by
    rw [h1]
  set v1 : Vote :=
    { id := id1, voterId := voter.id, targetId := t1,
      phase := g.phase, dayNumber := g.dayNumber, round := 1 } with hv1
  set g1 : Game := { g with votes := g.votes ++ [v1] } with hg1def
  have hfind2 : g1.votes.find? (fun v => v.voterId == voter.id &&
      v.dayNumber == g1.dayNumber && v.phase == g1.phase) = some v1 := by
    show (g.votes ++ [v1]).find? (fun v => v.voterId == voter.id &&
      v.dayNumber == g.dayNumber && v.phase == g.phase) = some v1
    rw [find?_append_of_none _ _ _ hfindnone]
    simp [hv1]
  rcases castVote_updates g1 u t2 id2 voter v1 hphase hv hva ht2 hfind2 with
    ⟨allv2, h2⟩
  have hmap : g1.votes.map (fun v =>
      if v.id == v1.id then { v with targetId := t2 } else v) =
      g.votes ++
        [{ id := id1, voterId := voter.id, targetId := t2,
           phase := g.phase, dayNumber := g.dayNumber, round := 1 }] := by
    show (g.votes ++ [v1]).map _ = _
    rw [List.map_append]
    congr 1
    · have hptwise : ∀ v ∈ g.votes,
          (if (v.id == v1.id) = true then { v with targetId := t2 } else v) =
            id v := by
        intro v hvmem
        have hvne : (v.id == v1.id) = false := by
          simp [hv1]
          exact hid v hvmem
        simp [hvne]
      rw [List.map_congr_left hptwise, List.map_id]
    · simp [hv1]
  have hg2eq : (GameService.castVote g1 u t2 id2).1 =
      { g1 with votes := g.votes ++
        [{ id := id1, voterId := voter.id, targetId := t2,
           phase := g.phase, dayNumber := g.dayNumber, round := 1 }] } := by
    rw [h2]
    simp only
    rw [hmap]
  refine ⟨⟨(v1, allv1), ?_⟩,
    ⟨({ v1 with targetId := t2 }, allv2), ?_, rfl⟩, ?_, ?_, ?_⟩
  · rw [h1]
  · rw [hg1eq, h2]
  · rw [hg1eq]
    simp
  · rw [hg1eq, hg2eq]
    simp
  · rw [hg1eq, hg2eq]
    simp only
    rw [List.filter_append, hnone]
    simp [hv1]

/-- Claim C7, witness — on `gVoteTwice`, player `u1` votes for `P2` and
then changes the vote to a skip: one vote row exists for the key, with
the latest (null) target. -/
theorem castVote_replaces_existing_witness :
    (∃ res2, (GameService.castVote
        (GameService.castVote gVoteTwice "u1" (some "P2") "v1").1 "u1" none
          "v2").2 = Except.ok res2 ∧
      res2.1.targetId = none) ∧
    (GameService.castVote (GameService.castVote gVoteTwice "u1" (some "P2")
        "v1").1 "u1" none "v2").1.votes.filter
      (fun v => v.voterId == "P1" &&
        v.dayNumber == gVoteTwice.dayNumber && v.phase == gVoteTwice.phase) =
      [{ id := "v1", voterId := "P1", targetId := none,
         phase := gVoteTwice.phase, dayNumber := gVoteTwice.dayNumber,
         round := 1 }] := by
  have h := castVote_replaces_existing gVoteTwice "u1"
    (mkPlayer "P1" "u1" 1 "pam" (some Role.VILLAGER) true)
    (some "P2") none "v1" "v2" rfl rfl rfl rfl rfl rfl
    (by intro v hv; simp [gVoteTwice, emptyGame] at hv)
  exact ⟨h.2.1, h.2.2.2.2⟩

/-!
Lemmas about rejection paths: both entry points either succeed or leave
the database untouched.
-/

theorem castVote_ok_or_id (g : Game) (u : String) (t : Option String)
    (fid : String) :
    (∃ res, (GameService.castVote g u t fid).2 = Except.ok res) ∨
    (GameService.castVote g u t fid).1 = g := by
  unfold GameService.castVote
  dsimp only
  repeat' split
  all_goals first
    | (right; rfl)
    | (left; exact ⟨_, rfl⟩)

theorem performNightAction_ok_or_id (g : Game) (u : String) (a : ActionType)
    (tid : String) (sid : Option String) (fid : String) :
    (∃ res, (GameService.performNightAction g u a tid sid fid).2 =
      Except.ok res) ∨
    (GameService.performNightAction g u a tid sid fid).1 = g := by
  unfold GameService.performNightAction
  dsimp only
  repeat' split
  all_goals first
    | (right; rfl)
    | (left; exact ⟨_, rfl⟩)

/-- Claim C8 (status: confirmed) — whenever `castVote` or
`performNightAction` rejects a submission by throwing (wrong phase,
missing or dead or role-less actor, action not allowed for the role,
used-up one-time resource, invalid or dead target or secondary target,
duplicate unprocessed night action), the database state after the call
is exactly the state before it: every check precedes the first write. -/
theorem reject_implies_no_state_change (g : Game) (u : String)
    (t : Option String) (fid : String) (a : ActionType) (tid : String)
    (sid : Option String) (fid2 : String) (e e2 : GameErr) :
    ((GameService.castVote g u t fid).2 = Except.error e →
      (GameService.castVote g u t fid).1 = g) ∧
    ((GameService.performNightAction g u a tid sid fid2).2 = Except.error e2 →
      (GameService.performNightAction g u a tid sid fid2).1 = g) := by
  constructor
  · intro herr
    rcases castVote_ok_or_id g u t fid with ⟨res, hok⟩ | hsame
    · rw [herr] at hok
      cases hok
    · exact hsame
  · intro herr
    rcases performNightAction_ok_or_id g u a tid sid fid2 with ⟨res, hok⟩ | hsame
    · rw [herr] at hok
      cases hok
    · exact hsame

/-- Claim C8, witness — on `gWrongPhase` (a DISCUSSION-phase game) both a
vote and a night action are rejected with a typed error and the state is
unchanged. -/
theorem reject_implies_no_state_change_witness :
    (GameService.castVote gWrongPhase "u1" none "v1").2 =
      Except.error (GameErr.validationError "Not in voting phase") ∧
    (GameService.castVote gWrongPhase "u1" none "v1").1 = gWrongPhase ∧
    (GameService.performNightAction gWrongPhase "u1"
        ActionType.WEREWOLF_KILL "P1" none "a1").2 =
      Except.error (GameErr.validationError "Not in night phase") ∧
    (GameService.performNightAction gWrongPhase "u1"
        ActionType.WEREWOLF_KILL "P1" none "a1").1 = gWrongPhase := by
  refine ⟨rfl, ?_, rfl, ?_⟩
  · exact (reject_implies_no_state_change gWrongPhase "u1" none "v1"
      ActionType.WEREWOLF_KILL "P1" none "a1"
      (GameErr.validationError "Not in voting phase")
      (GameErr.validationError "Not in night phase")).1 rfl
  · exact (reject_implies_no_state_change gWrongPhase "u1" none "v1"
      ActionType.WEREWOLF_KILL "P1" none "a1"
      (GameErr.validationError "Not in voting phase")
      (GameErr.validationError "Not in night phase")).2 rfl

/-!
Lemmas about the per-viewer projection `toGameStateForPlayer`.
-/

theorem playersAgree_find_viewer (vid : String) :
    ∀ (ps qs : List GamePlayer), playersAgreeExceptRole vid ps qs = true →
      ps.find? (fun p => p.userId == vid) = qs.find? (fun p => p.userId == vid) := by
  intro ps
  induction ps with
  | nil =>
      intro qs h
      cases qs with
      | nil => rfl
      | cons q qt => simp [playersAgreeExceptRole] at h
  | cons p pt ih =>
      intro qs h
      cases qs with
      | nil => simp [playersAgreeExceptRole] at h
      | cons q qt =>
          simp only [playersAgreeExceptRole, Bool.and_eq_true] at h
          obtain ⟨⟨⟨⟨⟨⟨⟨⟨h1, h2⟩, h3⟩, h4⟩, h5⟩, h6⟩, h7⟩, h8⟩, h9⟩ := h
          have huid : p.userId = q.userId := by simpa using h2
          simp only [List.find?_cons]
          cases hu : (p.userId == vid) with
          | true =>
              have hqu : (q.userId == vid) = true := by
                rw [← huid]
                exact hu
              rw [hqu]
              have hrole : p.role = q.role := by
                rcases (Bool.or_eq_true _ _).mp h8 with h | h
                · exact absurd hu (by simpa using h)
                · simpa using h
              have hpq : p = q := by
                cases p
                cases q
                simp_all
              rw [hpq]
          | false =>
              have hqu : (q.userId == vid) = false := by
                rw [← huid]
                exact hu
              rw [hqu]
              exact ih qt h9

theorem playersAgree_map_view (vid : String) :
    ∀ (ps qs : List GamePlayer), playersAgreeExceptRole vid ps qs = true →
      (ps.map fun p =>
        ({ id := p.id, userId := p.userId, nickname := p.nickname,
           isHost := p.isHost, isAlive := p.isAlive,
           playerNumber := p.playerNumber,
           isConnected := !p.disconnectedAt.isSome,
           role := if p.userId == vid then p.role else none } : PlayerView)) =
      qs.map fun p =>
        ({ id := p.id, userId := p.userId, nickname := p.nickname,
           isHost := p.isHost, isAlive := p.isAlive,
           playerNumber := p.playerNumber,
           isConnected := !p.disconnectedAt.isSome,
           role := if p.userId == vid then p.role else none } : PlayerView) := by
  intro ps
  induction ps with
  | nil =>
      intro qs h
      cases qs with
      | nil => rfl
      | cons q qt => simp [playersAgreeExceptRole] at h
  | cons p pt ih =>
      intro qs h
      cases qs with
      | nil => simp [playersAgreeExceptRole] at h
      | cons q qt =>
          simp only [playersAgreeExceptRole, Bool.and_eq_true] at h
          obtain ⟨⟨⟨⟨⟨⟨⟨⟨h1, h2⟩, h3⟩, h4⟩, h5⟩, h6⟩, h7⟩, h8⟩, h9⟩ := h
          have huid : p.userId = q.userId := by simpa using h2
          simp only [List.map_cons]
          rw [ih qt h9]
          congr 1
          have hidq : p.id = q.id := by simpa using h1
          have hnick : p.nickname = q.nickname := by simpa using h3
          have hnum : p.playerNumber = q.playerNumber := by simpa using h4
          have halive : p.isAlive = q.isAlive := by simpa using h5
          have hhost : p.isHost = q.isHost := by simpa using h6
          have hdisc : p.disconnectedAt = q.disconnectedAt := by simpa using h7
          cases hu : (p.userId == vid) with
          | true =>
              have hqu : (q.userId == vid) = true := by
                rw [← huid]
                exact hu
              have hrole : p.role = q.role := by
                rcases (Bool.or_eq_true _ _).mp h8 with h | h
                · exact absurd hu (by simpa using h)
                · simpa using h
              simp [hidq, huid, hnick, hnum, halive, hhost, hdisc, hu, hqu, hrole]
          | false =>
              have hqu : (q.userId == vid) = false := by
                rw [← huid]
                exact hu
              simp [hidq, huid, hnick, hnum, halive, hhost, hdisc, hu, hqu]

theorem roleStatesAgree_find (pid : String) :
    ∀ (rs ss : List RoleState), roleStatesAgreeExcept (some pid) rs ss = true →
      rs.find? (fun r => r.playerId == pid) =
        ss.find? (fun r => r.playerId == pid) := by
  intro rs
  induction rs with
  | nil =>
      intro ss h
      cases ss with
      | nil => rfl
      | cons s st => simp [roleStatesAgreeExcept] at h
  | cons r rt ih =>
      intro ss h
      cases ss with
      | nil => simp [roleStatesAgreeExcept] at h
      | cons s st =>
          simp only [roleStatesAgreeExcept, Bool.and_eq_true] at h
          obtain ⟨⟨h1, h2⟩, h3⟩ := h
          have hpid : r.playerId = s.playerId := by simpa using h1
          simp only [List.find?_cons]
          cases hr : (r.playerId == pid) with
          | true =>
              have hs : (s.playerId == pid) = true := by
                rw [← hpid]
                exact hr
              rw [hs]
              have hrs : r = s := by
                rcases (Bool.or_eq_true _ _).mp h2 with h | h
                · exfalso
                  have : (some r.playerId == some pid) = true := by
                    simpa using eq_of_beq hr
                  simp [this] at h
                · exact eq_of_beq h
              rw [hrs]
          | false =>
              have hs : (s.playerId == pid) = false := by
                rw [← hpid]
                exact hr
              rw [hs]
              exact ih st h3

/-- Claim C9 (status: confirmed) — the per-viewer projection includes a
role only on the viewer's own entry, and is invariant under changes to
any other player's role and to any role-state other than the viewer's
own: two snapshots that agree on everything except hidden information of
other players project to the same view for the viewer. -/
theorem toGameStateForPlayer_no_role_leak (g g2 : Game) (vid : String)
    (hid : g.id = g2.id) (hcode : g.code = g2.code)
    (hstatus : g.status = g2.status) (hphase : g.phase = g2.phase)
    (hday : g.dayNumber = g2.dayNumber) (hset : g.settings = g2.settings)
    (hloc : g.locale = g2.locale) (htimers : g.timers = g2.timers)
    (hp : playersAgreeExceptRole vid g.players g2.players = true)
    (hr : roleStatesAgreeExcept
      ((g.players.find? fun p => p.userId == vid).map GamePlayer.id)
      g.roleStates g2.roleStates = true) :
    (∀ pv ∈ (toGameStateForPlayer g vid).players, pv.role.isSome = true →
      pv.userId = vid) ∧
    toGameStateForPlayer g vid = toGameStateForPlayer g2 vid := by
  constructor
  · intro pv hpv hsome
    unfold toGameStateForPlayer at hpv
    dsimp only at hpv
    rcases List.mem_map.mp hpv with ⟨p, hpmem, hview⟩
    cases hu : (p.userId == vid) with
    | true =>
        rw [← hview]
        simpa using eq_of_beq hu
    | false =>
        rw [← hview] at hsome
        simp [hu] at hsome
  · have hfind := playersAgree_find_viewer vid g.players g2.players hp
    have hmap := playersAgree_map_view vid g.players g2.players hp
    unfold toGameStateForPlayer
    dsimp only
    rw [hid, hcode, hstatus, hphase, hday, hset, hloc, htimers, hmap, hfind]
    rcases hv : g2.players.find? (fun p => p.userId == vid) with _ | v
    · rw [hv]
    · rw [hv]
      dsimp only
      have hrfind : g.roleStates.find? (fun rs => rs.playerId == v.id) =
          g2.roleStates.find? (fun rs => rs.playerId == v.id) := by
        apply roleStatesAgree_find
        rw [hfind, hv] at hr
        exact hr
      rw [hrfind]

/-- Claim C9, witness — the projection for viewer `u1` of `gViewA` and of
`gViewB` (which differ exactly in player `P2`'s role and role-state)
coincide, and no entry but the viewer's carries a role. -/
theorem toGameStateForPlayer_no_role_leak_witness :
    (∀ pv ∈ (toGameStateForPlayer gViewA "u1").players, pv.role.isSome = true →
      pv.userId = "u1") ∧
    toGameStateForPlayer gViewA "u1" = toGameStateForPlayer gViewB "u1" :=
  toGameStateForPlayer_no_role_leak gViewA gViewB "u1" rfl rfl rfl rfl rfl rfl
    rfl rfl (by decide) (by decide)

/-- Claim C10 (status: confirmed) — `joinGame` is idempotent for existing
members: when the user is already one of the game's players, the call
returns the fetched game and that member's player row without raising an
error, adds no player (only the member's `disconnectedAt` marker may be
cleared), and never reaches the LOBBY-status or capacity checks — the
hypotheses place no constraint on `status` or on
`players.length` versus `maxPlayers`. -/
theorem joinGame_idempotent_member (g : Game) (u nick fid : String)
    (p : GamePlayer)
    (hmem : g.players.find? (fun q => q.userId == u) = some p) :
    (GameService.joinGame g u nick fid).2 = Except.ok (g, p) ∧
    (GameService.joinGame g u nick fid).1.players =
      (if p.disconnectedAt.isSome then
        g.players.map fun q =>
          if q.id == p.id then { q with disconnectedAt := none } else q
       else g.players) ∧
    (GameService.joinGame g u nick fid).1.players.length =
      g.players.length := by
  unfold GameService.joinGame
  rw [hmem]
  dsimp only
  by_cases hd : p.disconnectedAt.isSome = true
  · simp [hd, appendEvent]
  · simp only [Bool.not_eq_true] at hd
    simp [hd]

/-- Claim C10, witness — `gFullGame` is IN_PROGRESS and at capacity
(`maxPlayers = 2` with 2 players), yet `joinGame` for the existing
member `u2` succeeds, returning that member and adding nobody. -/
theorem joinGame_idempotent_member_witness :
    gFullGame.status = GameStatus.IN_PROGRESS ∧
    gFullGame.players.length = gFullGame.settings.maxPlayers ∧
    (GameService.joinGame gFullGame "u2" "pat" "P9").2 =
      Except.ok (gFullGame,
        { mkPlayer "P2" "u2" 2 "pat" (some Role.WEREWOLF) true with
          disconnectedAt := some 42 }) ∧
    (GameService.joinGame gFullGame "u2" "pat" "P9").1.players.length =
      gFullGame.players.length :=
  ⟨rfl, rfl,
   (joinGame_idempotent_member gFullGame "u2" "pat" "P9"
      ({ mkPlayer "P2" "u2" 2 "pat" (some Role.WEREWOLF) true with
         disconnectedAt := some 42 }) rfl).1,
   (joinGame_idempotent_member gFullGame "u2" "pat" "P9"
      ({ mkPlayer "P2" "u2" 2 "pat" (some Role.WEREWOLF) true with
         disconnectedAt := some 42 }) rfl).2.2⟩

end Werewolf
